import Mathlib

/-!
Verification development for the statistical analysis engine of the cricket
anthropometric study (scripts/run_analysis.py, with the duplicated breakpoint
loop of scripts/generate_figures.py).

The tabular dataset is embedded as a list of typed rows; missing values are
Option. Floating-point numbers are modelled as exact rationals. External
statistical kernels (statsmodels OLS summaries, scipy distribution CDFs and
t-tests, numpy sqrt) are abstracted as function parameters, while every piece
of arithmetic the scripts perform themselves (missing-value filtering, row
thresholds, residual sums of squares of the simple regressions used by the
Chow test, the Chow statistic, Bonferroni adjustment, rounding, selection
loops, serialization) is embedded concretely.
-/

namespace Cric

/-- A cell value of the merged table: string, numeric or boolean. -/
inductive Value where
  | str (s : String)
  | num (q : ℚ)
  | bool (b : Bool)
deriving DecidableEq, Repr

/-- One row of data/processed/all_players.csv after the numeric coercion in
main (pd.to_numeric with errors="coerce"); a missing cell is none.
era_n is the numeric era column; table8 rewrites it to the string column
era_s in place (subset["era"] = subset["era"].astype(str)).
extra models indicator columns added by pd.get_dummies / DataFrame.insert. -/
structure Row where
  player_id : Option String := none
  full_name : Option String := none
  country : Option String := none
  category : Option String := none
  batting_position : Option ℚ := none
  birth_year : Option ℚ := none
  age_at_tournament : Option ℚ := none
  height_cm : Option ℚ := none
  height_verified : Option Bool := none
  pop_height_birth_cohort : Option ℚ := none
  height_excess : Option ℚ := none
  tournament_id : Option String := none
  format : Option String := none
  tournament_year : Option ℚ := none
  era_n : Option ℚ := none
  era_s : Option String := none
  region : Option String := none
  flag : Option String := none
  extra : List (String × ℚ) := []
deriving DecidableEq, Repr

/-- Column access by name, as the pandas frame does. -/
def Row.col (r : Row) : String → Option Value
  | "player_id" => r.player_id.map .str
  | "full_name" => r.full_name.map .str
  | "country" => r.country.map .str
  | "category" => r.category.map .str
  | "batting_position" => r.batting_position.map .num
  | "birth_year" => r.birth_year.map .num
  | "age_at_tournament" => r.age_at_tournament.map .num
  | "height_cm" => r.height_cm.map .num
  | "height_verified" => r.height_verified.map .bool
  | "pop_height_birth_cohort" => r.pop_height_birth_cohort.map .num
  | "height_excess" => r.height_excess.map .num
  | "tournament_id" => r.tournament_id.map .str
  | "format" => r.format.map .str
  | "tournament_year" => r.tournament_year.map .num
  | "era" => r.era_n.map .num
  | "region" => r.region.map .str
  | "flag" => r.flag.map .str
  | _ => none

/-- A data frame is a list of rows. -/
abbrev Frame := List Row

/-- df.dropna(subset=cols): keep the rows where every named column is
non-missing. -/
def dropna (cols : List String) (df : Frame) : Frame :=
  df.filter (fun r => cols.all (fun c => (r.col c).isSome))

/-- Round half to even on an exact rational, the tie rule of Python round. -/
def rhalfeven (q : ℚ) : ℤ :=
  let f := q.floor
  let r := q - (f : ℚ)
  if r < 1 / 2 then f
  else if 1 / 2 < r then f + 1
  else if f % 2 = 0 then f else f + 1

/-- round(x, d): the Python rounding applied to every stored float. -/
def roundTo (d : ℕ) (x : ℚ) : ℚ :=
  ((rhalfeven (x * 10 ^ d) : ℚ)) / 10 ^ d

def CATEGORIES : List String := ["WK", "BAT", "FAST", "SPIN"]

def NATIONS : List String := ["AUS", "ENG", "IND", "PAK", "WI", "NZL", "SL", "RSA"]

/-! ### Simple linear regression (height_cm ~ tournament_year)

smf.ols fits ordinary least squares; for the single-predictor formula used by
the breakpoint analysis the fitted coefficients are the classical
normal-equation solution, embedded here in exact rational arithmetic, and
model.ssr is the residual sum of squares of that fit. -/

def sumX (pts : List (ℚ × ℚ)) : ℚ := (pts.map Prod.fst).sum

def sumY (pts : List (ℚ × ℚ)) : ℚ := (pts.map Prod.snd).sum

def sumXX (pts : List (ℚ × ℚ)) : ℚ := (pts.map (fun p => p.1 ^ 2)).sum

def sumXY (pts : List (ℚ × ℚ)) : ℚ := (pts.map (fun p => p.1 * p.2)).sum

def sumYY (pts : List (ℚ × ℚ)) : ℚ := (pts.map (fun p => p.2 ^ 2)).sum

/-- A fitted regression line. -/
structure Line where
  slope : ℚ
  intercept : ℚ
deriving DecidableEq, Repr

def Line.at (L : Line) (x : ℚ) : ℚ := L.intercept + L.slope * x

/-- The least-squares line through pts (the unique normal-equation solution
when the x values are not all equal; with a constant predictor the rational
division by the zero determinant yields slope 0 and the mean as intercept,
which is a least-squares solution of the rank-deficient system). -/
def fitLine (pts : List (ℚ × ℚ)) : Line :=
  let n : ℚ := pts.length
  let den := n * sumXX pts - (sumX pts) ^ 2
  let slope := (n * sumXY pts - sumX pts * sumY pts) / den
  { slope := slope, intercept := sumY pts / n - slope * (sumX pts / n) }

/-- Residual sum of squares of a line over a point list. -/
def rss (L : Line) (pts : List (ℚ × ℚ)) : ℚ :=
  (pts.map (fun p => (p.2 - L.at p.1) ^ 2)).sum

/-- The (year, height) pairs of the rows where both columns are present:
the observations that actually enter an smf.ols fit of
height_cm ~ tournament_year (patsy drops rows with a missing value). -/
def ptsOf (df : Frame) : List (ℚ × ℚ) :=
  df.filterMap (fun r =>
    r.tournament_year.bind (fun y => r.height_cm.map (fun h => (y, h))))

/-! ### Table 7: breakpoint search (segmented regression + Chow test) -/

/-- subset[subset["tournament_year"] <= bp]; a missing year compares as
False, as a NaN does in pandas. -/
def preOf (subset : Frame) (bp : ℚ) : Frame :=
  subset.filter (fun r => (r.tournament_year.map (fun y => decide (y ≤ bp))).getD false)

/-- subset[subset["tournament_year"] > bp]. -/
def postOf (subset : Frame) (bp : ℚ) : Frame :=
  subset.filter (fun r => (r.tournament_year.map (fun y => decide (bp < y))).getD false)

def candidate_years : List ℚ := [1996, 1999, 2003, 2007, 2010, 2012]

/-- model_full.ssr: residual sum of squares of the pooled fit. -/
def rss_full (subset : Frame) : ℚ :=
  rss (fitLine (ptsOf subset)) (ptsOf subset)

/-- model_pre.ssr + model_post.ssr: the restricted residual sum of squares of
the two independent segment fits at candidate year bp. -/
def rss_restricted (subset : Frame) (bp : ℚ) : ℚ :=
  rss (fitLine (ptsOf (preOf subset bp))) (ptsOf (preOf subset bp)) +
    rss (fitLine (ptsOf (postOf subset bp))) (ptsOf (postOf subset bp))

/-- The Chow statistic computed in the candidate loop, with k = 2 parameters
and n = len(subset):
f_stat = ((rss_full - rss_restricted) / k) / (rss_restricted / (n - 2 * k)). -/
def chowFstat (subset : Frame) (bp : ℚ) : ℚ :=
  ((rss_full subset - rss_restricted subset bp) / 2) /
    (rss_restricted subset bp / ((subset.length : ℚ) - 2 * 2))

/-- The (f_stat, p_value) pair of one candidate evaluation; fcdf abstracts
scipy.stats.f.cdf, taking the statistic and the two degrees of freedom. -/
def chow_eval (fcdf : ℚ → ℕ → ℕ → ℚ) (subset : Frame) (bp : ℚ) : ℚ × ℚ :=
  (chowFstat subset bp, 1 - fcdf (chowFstat subset bp) 2 (subset.length - 2 * 2))

/-- The f_stat of the duplicated candidate loop in generate_figures.py
(fig6_breakpoint), computed from the same three fits. -/
def fig6_f_stat (subset : Frame) (bp : ℚ) : ℚ :=
  ((rss_full subset - rss_restricted subset bp) / 2) /
    (rss_restricted subset bp / ((subset.length : ℚ) - 2 * 2))

/-- The loop state best_bp / best_f / best_p, initialised to None / -1 / 1.0. -/
structure BestState where
  bp : Option ℚ
  f : ℚ
  p : ℚ
deriving DecidableEq, Repr

/-- One iteration of the candidate loop: skip the candidate when either
partition has fewer than 5 rows, otherwise evaluate the Chow test and keep it
only when f_stat > best_f (strict, so an earlier candidate wins ties). -/
def chow_step (fcdf : ℚ → ℕ → ℕ → ℚ) (subset : Frame) (st : BestState) (bp : ℚ) :
    BestState :=
  if (preOf subset bp).length < 5 ∨ (postOf subset bp).length < 5 then st
  else
    let fp := chow_eval fcdf subset bp
    if st.f < fp.1 then { bp := some bp, f := fp.1, p := fp.2 } else st

/-- The whole candidate sweep over the fixed ordered candidate list. -/
def chow_search (fcdf : ℚ → ℕ → ℕ → ℚ) (subset : Frame) : BestState :=
  candidate_years.foldl (chow_step fcdf subset) { bp := none, f := -1, p := 1 }

/-- The p value of one candidate evaluation:
p_value = 1 - stats.f.cdf(f_stat, k, n - 2 * k). -/
def chowPval (fcdf : ℚ → ℕ → ℕ → ℚ) (subset : Frame) (bp : ℚ) : ℚ :=
  1 - fcdf (chowFstat subset bp) 2 (subset.length - 2 * 2)

/-- The sub-list of candidates whose two partitions both have at least
5 rows. -/
def valid_filter (subset : Frame) (l : List ℚ) : List ℚ :=
  l.filter
    (fun bp => !(decide ((preOf subset bp).length < 5 ∨ (postOf subset bp).length < 5)))

def valid_candidates (subset : Frame) : List ℚ :=
  valid_filter subset candidate_years

/-- Invariant of the candidate loop after the candidates seen so far: either
nothing valid has been seen and the state is still the initial one, or the
state holds the Chow statistics of the earliest maximum among the valid
candidates seen. -/
def chow_inv (fcdf : ℚ → ℕ → ℕ → ℚ) (subset : Frame) (seen : List ℚ)
    (st : BestState) : Prop :=
  (st = { bp := none, f := -1, p := 1 } ∧ valid_filter subset seen = []) ∨
  (∃ b s1 s2, st.bp = some b ∧ st.f = chowFstat subset b ∧
    st.p = chowPval fcdf subset b ∧
    valid_filter subset seen = s1 ++ b :: s2 ∧
    (∀ c ∈ s1, chowFstat subset c < st.f) ∧ (∀ c ∈ s2, chowFstat subset c ≤ st.f))

/-! ### safe_ols: the guarded OLS summary shared by the table modules

The numerical content of a statsmodels fit summary (estimates, standard
errors, t values, p values, confidence bounds, R2 and the model F test) is
abstracted as a fit kernel passed in as a parameter; safe_ols itself performs
the missing-value filtering, the 5-row floor, and the rounding of every
stored value. -/

/-- Unrounded per-coefficient summary of a statsmodels fit. -/
structure RawCoef where
  estimate : ℚ
  std_err : ℚ
  t_value : ℚ
  p_value : ℚ
  ci_lower : ℚ
  ci_upper : ℚ
deriving DecidableEq, Repr

/-- Unrounded model-level summary; a NaN model F statistic is none, matching
the np.isnan guard. -/
structure RawFit where
  r_squared : ℚ
  adj_r_squared : ℚ
  f_statistic : Option ℚ
  f_pvalue : Option ℚ
  coefficients : List (String × RawCoef)
deriving DecidableEq, Repr

/-- A kernel standing for smf.ols(formula, data).fit(): it receives the
response, the predictors and the filtered rows. -/
abbrev FitKernel := String → List String → Frame → RawFit

/-- One stored coefficient entry of the results document. -/
structure Coef where
  estimate : ℚ
  std_err : ℚ
  t_value : ℚ
  p_value : ℚ
  ci_lower : ℚ
  ci_upper : ℚ
deriving DecidableEq, Repr

/-- One stored regression summary of the results document. -/
structure OLSResult where
  n : ℕ
  r_squared : ℚ
  adj_r_squared : ℚ
  f_statistic : Option ℚ
  f_pvalue : Option ℚ
  coefficients : List (String × Coef)
deriving DecidableEq, Repr

/-- safe_ols(formula, data): drop the rows with a missing value in any column
named by the formula (the tokens obtained by splitting it on "~" and "+" are
exactly the response and the predictors), refuse to fit when fewer than 5
complete rows remain, otherwise fit and round every stored value
(4 decimal places, 6 for p values). -/
def safe_ols (fit : FitKernel) (response : String) (predictors : List String)
    (data : Frame) : Option OLSResult :=
  let data_clean := dropna (response :: predictors) data
  if data_clean.length < 5 then none
  else
    let m := fit response predictors data_clean
    some
      { n := data_clean.length
        r_squared := roundTo 4 m.r_squared
        adj_r_squared := roundTo 4 m.adj_r_squared
        f_statistic := m.f_statistic.map (roundTo 4)
        f_pvalue := m.f_pvalue.map (roundTo 6)
        coefficients := m.coefficients.map (fun kc =>
          (kc.1,
            { estimate := roundTo 4 kc.2.estimate
              std_err := roundTo 4 kc.2.std_err
              t_value := roundTo 4 kc.2.t_value
              p_value := roundTo 6 kc.2.p_value
              ci_lower := roundTo 4 kc.2.ci_lower
              ci_upper := roundTo 4 kc.2.ci_upper })) }

/-- One stored entry of results in table7_breakpoint. -/
structure BreakpointRec where
  best_breakpoint : ℚ
  f_statistic : ℚ
  p_value : ℚ
  significant : Bool
  pre_slope : Option ℚ
  post_slope : Option ℚ
deriving DecidableEq, Repr

/-- The table7 body for one slice: skip the slice entirely below 10 rows, run
the candidate sweep, and if a best breakpoint was found store its rounded
statistics together with the two independently fitted segment slopes
(best_bp is one of the nonzero candidate years, so the Python truthiness
test "if best_bp:" is exactly the some test). -/
def table7_slice (fcdf : ℚ → ℕ → ℕ → ℚ) (fit : FitKernel) (subset : Frame) :
    Option BreakpointRec :=
  if subset.length < 10 then none
  else
    let st := chow_search fcdf subset
    match st.bp with
    | none => none
    | some b =>
      let res_pre := safe_ols fit "height_cm" ["tournament_year"] (preOf subset b)
      let res_post := safe_ols fit "height_cm" ["tournament_year"] (postOf subset b)
      some
        { best_breakpoint := b
          f_statistic := roundTo 4 st.f
          p_value := roundTo 6 st.p
          significant := decide (st.p < 1 / 20)
          pre_slope := res_pre.bind (fun m =>
            (m.coefficients.lookup "tournament_year").map (fun c => c.estimate))
          post_slope := res_post.bind (fun m =>
            (m.coefficients.lookup "tournament_year").map (fun c => c.estimate)) }

/-- Table 7 over its three slices BAT, FAST, ALL; a slice that is skipped or
finds no valid breakpoint stores nothing. -/
def table7_breakpoint (fcdf : ℚ → ℕ → ℕ → ℚ) (fit : FitKernel) (df : Frame) :
    List (String × BreakpointRec) :=
  ["BAT", "FAST", "ALL"].filterMap (fun cat =>
    let subset :=
      if cat = "ALL" then dropna ["height_cm", "tournament_year"] df
      else dropna ["height_cm", "tournament_year"]
        (df.filter (fun r => r.category = some cat))
    (table7_slice fcdf fit subset).map (fun rec => (cat, rec)))

/-! ### Table 3: unadjusted regression per category -/

/-- Table 3: for each category, height_cm ~ tournament_year. A category slice
with fewer than 5 complete rows is only reported on the console
("Insufficient data (n=...)") and the loop continues: no entry is stored for
it. The combined slice is stored under "ALL" when it has at least 5 rows. -/
def table3_unadjusted_regression (fit : FitKernel) (df : Frame) :
    List (String × Option OLSResult) :=
  let per_cat := CATEGORIES.filterMap (fun cat =>
    let subset := dropna ["height_cm", "tournament_year"]
      (df.filter (fun r => r.category = some cat))
    if subset.length < 5 then none
    else some (cat, safe_ols fit "height_cm" ["tournament_year"] subset))
  let subset_all := dropna ["height_cm", "tournament_year"] df
  if 5 ≤ subset_all.length then
    per_cat ++ [("ALL", safe_ols fit "height_cm" ["tournament_year"] subset_all)]
  else per_cat

/-! ### Table 6: regional ANOVA, manual Bonferroni pairwise branch -/

/-- Code-point comparison of strings, the Python string order. -/
def charsLe : List Char → List Char → Bool
  | [], _ => true
  | _ :: _, [] => false
  | c :: cs, d :: ds =>
    if c.toNat < d.toNat then true
    else if d.toNat < c.toNat then false
    else charsLe cs ds

def strLe (a b : String) : Bool := charsLe a.data b.data

/-- Insert into a sorted list, keeping ascending order. -/
def insertSorted (x : String) : List String → List String
  | [] => [x]
  | y :: ys => if strLe x y then x :: y :: ys else y :: insertSorted x ys

/-- Ascending insertion sort, the order of Python sorted() on strings. -/
def sortStrs : List String → List String
  | [] => []
  | x :: xs => insertSorted x (sortStrs xs)

/-- sorted(subset["region"].unique()). -/
def regions_sorted (subset : Frame) : List String :=
  sortStrs ((subset.filterMap (fun r => r.region)).dedup)

/-- The region slice subset[subset["region"] == r]. -/
def region_slice (subset : Frame) (reg : String) : Frame :=
  subset.filter (fun r => r.region = some reg)

/-- valid_regions: the sorted regions whose slice has at least 2 rows (the
same condition that admits a group into the one-way ANOVA). -/
def valid_regions (subset : Frame) : List String :=
  (regions_sorted subset).filter (fun reg => 2 ≤ (region_slice subset reg).length)

/-- The height series of a region slice. -/
def region_heights (subset : Frame) (reg : String) : List ℚ :=
  (region_slice subset reg).filterMap (fun r => r.height_cm)

/-- The (r1, r2) pairs enumerated by
"for i, r1 in enumerate(valid): for r2 in valid[i+1:]". -/
def pairs_of : List String → List (String × String)
  | [] => []
  | r1 :: rest => (rest.map (fun r2 => (r1, r2))) ++ pairs_of rest

/-- A stored row of the pairwise comparison list. -/
structure PairRec where
  pair : String
  t : ℚ
  p_adj : ℚ
deriving DecidableEq, Repr

/-- The manual Bonferroni branch of table6_regional_anova (taken when
pingouin is absent): Welch two-sample t-tests over every pair of valid
regions, the p value multiplied by the number of pairwise comparisons and
capped at 1.0. ttest abstracts scipy.stats.ttest_ind(equal_var=False),
returning the (t, p) pair of two samples. The branch runs only under the
surrounding "if len(groups) >= 2" test, and groups has exactly one entry per
valid region. -/
def table6_pairwise (ttest : List ℚ → List ℚ → ℚ × ℚ) (df : Frame) : List PairRec :=
  let subset := dropna ["height_cm", "region"] df
  let valid := valid_regions subset
  if valid.length < 2 then []
  else
    let n_comparisons := valid.length * (valid.length - 1) / 2
    (pairs_of valid).map (fun pr =>
      let tp := ttest (region_heights subset pr.1) (region_heights subset pr.2)
      let p_adj := min (tp.2 * n_comparisons) 1
      { pair := pr.1 ++ " vs " ++ pr.2
        t := roundTo 4 tp.1
        p_adj := roundTo 6 p_adj })

/-! ### Table 10 item 6: FAST vs BAT effect size -/

def mean (l : List ℚ) : ℚ := l.sum / l.length

/-- The sample variance with ddof = 1, the square of the pandas Series.std()
used in the effect-size computation. -/
def sample_var (l : List ℚ) : ℚ :=
  ((l.map (fun x => (x - mean l) ^ 2)).sum) / ((l.length : ℚ) - 1)

/-- Cohen's d as line 690 computes it:
d = diff / pooled_sd if pooled_sd > 0 else 0, with
pooled_sd = np.sqrt((fast.std() ** 2 + bat.std() ** 2) / 2). sqrtF abstracts
the floating np.sqrt; std() is sqrtF of the sample variance. -/
def pooled_sd_of (sqrtF : ℚ → ℚ) (fast bat : List ℚ) : ℚ :=
  sqrtF (((sqrtF (sample_var fast)) ^ 2 + (sqrtF (sample_var bat)) ^ 2) / 2)

def cohens_d_guarded (sqrtF : ℚ → ℚ) (fast bat : List ℚ) : ℚ :=
  let diff := mean fast - mean bat
  let pooled_sd := pooled_sd_of sqrtF fast bat
  if 0 < pooled_sd then diff / pooled_sd else 0

/-- The stored fast_vs_bat record. -/
structure FastVsBatRec where
  fast_mean : ℚ
  bat_mean : ℚ
  difference : ℚ
  cohens_d : ℚ
  t_statistic : ℚ
  p_value : ℚ
deriving DecidableEq, Repr

/-- Sensitivity item 6: the FAST and BAT height series (category filter, then
the height column, then dropna), the 3-row floor on each group, and the
effect-size summary. -/
def table10_fast_vs_bat (sqrtF : ℚ → ℚ) (ttest : List ℚ → List ℚ → ℚ × ℚ)
    (df : Frame) : Option FastVsBatRec :=
  let fast := (df.filter (fun r => r.category = some "FAST")).filterMap
    (fun r => r.height_cm)
  let bat := (df.filter (fun r => r.category = some "BAT")).filterMap
    (fun r => r.height_cm)
  if 3 ≤ fast.length ∧ 3 ≤ bat.length then
    let tp := ttest fast bat
    some
      { fast_mean := roundTo 2 (mean fast)
        bat_mean := roundTo 2 (mean bat)
        difference := roundTo 2 (mean fast - mean bat)
        cohens_d := roundTo 4 (cohens_d_guarded sqrtF fast bat)
        t_statistic := roundTo 4 tp.1
        p_value := roundTo 6 tp.2 }
  else none

/-! ### main: loading guards and the module sequence -/

/-- The results document assembled by main, restricted to the embedded
modules (the remaining tables delegate their numerical content entirely to
the abstracted statistical kernels and are not needed by any stated
property of the document's values). -/
structure ResultsDoc where
  table3_unadjusted : List (String × Option OLSResult)
  table6_regional_pairwise : List PairRec
  table7 : List (String × BreakpointRec)
  table10_fast_vs_bat : Option FastVsBatRec
deriving DecidableEq, Repr

/-- main: a missing merged CSV (input none) aborts with sys.exit(1) before
anything runs; after the numeric coercion (already reflected in the typed
rows) the frame is filtered to the rows with a valid height, and an empty
result aborts with sys.exit(1) before any analysis module runs; otherwise
every module runs on df_valid and the document is assembled and saved. -/
def run_analysis_main (fit : FitKernel) (ttest : List ℚ → List ℚ → ℚ × ℚ)
    (fcdf : ℚ → ℕ → ℕ → ℚ) (sqrtF : ℚ → ℚ) (input : Option Frame) :
    Except String ResultsDoc :=
  match input with
  | none => Except.error "ERROR: Merged CSV not found"
  | some df =>
    let df_valid := df.filter (fun r => r.height_cm.isSome)
    if df_valid.length = 0 then
      Except.error "ERROR: No records with valid height data."
    else
      Except.ok
        { table3_unadjusted := table3_unadjusted_regression fit df_valid
          table6_regional_pairwise := table6_pairwise ttest df_valid
          table7 := table7_breakpoint fcdf fit df_valid
          table10_fast_vs_bat := table10_fast_vs_bat sqrtF ttest df_valid }

/-! ### Frame store: the aliasing discipline of the analysis run

To state that no table function mutates the frame it receives, frames live in
an explicit store of frame objects addressed by reference. Every pandas
expression that builds a new frame (a boolean-mask selection, dropna, .copy(),
pd.get_dummies) allocates a fresh object; the two in-place operations of the
scripts (subset["era"] = subset["era"].astype(str) in table8 and
X.insert(0, "Intercept", 1.0) in table9) write through the reference of the
frame they name. Each tableN_frames function below performs exactly the
top-level frame allocations and in-place writes of the corresponding source
function (the read-only aggregations of groupby / pivot_table and the fitted
model objects create no row frame). -/

structure Store where
  frames : List Frame
deriving DecidableEq, Repr

/-- Allocate a fresh frame object; its reference is the length of the store
before the allocation. -/
def Store.push (s : Store) (f : Frame) : Store :=
  { frames := s.frames ++ [f] }

/-- Dereference. -/
def Store.read (s : Store) (i : ℕ) : Frame :=
  s.frames.getD i []

/-- In-place mutation of the frame object at a reference. -/
def Store.write (s : Store) (i : ℕ) (f : Frame) : Store :=
  { frames := s.frames.set i f }

/-- Allocate a fresh frame and immediately mutate the new object in place
(the pattern "subset = ....copy(); subset[col] = ..." and
"X = ....copy(); X.insert(...)"): the write goes through the fresh
reference. -/
def Store.push_write (s : Store) (f : Frame) (g : Frame → Frame) : Store :=
  (s.push f).write s.frames.length (g ((s.push f).read s.frames.length))

/-- subset["era"] = subset["era"].astype(str): the numeric era column is
replaced by its string form. -/
def astype_str_era (f : Frame) : Frame :=
  f.map (fun r => { r with era_n := none, era_s := r.era_n.map toString })

/-- pd.get_dummies(frame, columns=["category"], drop_first=True, dtype=float):
one indicator column per category level except the first (levels sorted, as
pandas orders the categories), appended to the row. -/
def get_dummies_category (f : Frame) : Frame :=
  let levels := (sortStrs ((f.filterMap (fun r => r.category)).dedup)).drop 1
  f.map (fun r =>
    { r with extra := r.extra ++ levels.map (fun c =>
        ("category_" ++ c, if r.category = some c then (1 : ℚ) else 0)) })

/-- X.insert(0, "Intercept", 1.0). -/
def insert_intercept (f : Frame) : Frame :=
  f.map (fun r => { r with extra := ("Intercept", (1 : ℚ)) :: r.extra })

/-- table2_descriptive only aggregates (groupby, pivot_table, column sums):
it builds no new row frame and writes nothing. -/
def table2_frames (_df : ℕ) (s : Store) : Store := s

/-- table3: one filtered dropna frame per category, then subset_all; each is
only passed on to safe_ols, whose dropna builds a further fresh frame. -/
def table3_frames (df : ℕ) (s : Store) : Store :=
  let s1 := CATEGORIES.foldl (fun s cat =>
    s.push (dropna ["height_cm", "tournament_year"]
      ((s.read df).filter (fun r => r.category = some cat)))) s
  s1.push (dropna ["height_cm", "tournament_year"] (s1.read df))

/-- table4: subset_all with population heights, one category view of it per
category, and the per-category unadjusted frames of the attenuation pass. -/
def table4_frames (df : ℕ) (s : Store) : Store :=
  let s1 := s.push (dropna ["height_cm", "tournament_year", "pop_height_birth_cohort"]
    (s.read df))
  let s2 := CATEGORIES.foldl (fun s cat =>
    s.push ((s.read df).filter (fun r => r.category = some cat))) s1
  CATEGORIES.foldl (fun s cat =>
    s.push (dropna ["height_cm", "tournament_year"]
      ((s.read df).filter (fun r => r.category = some cat)))) s2

/-- table5: the BAT frame, then one nation view per nation. -/
def table5_frames (df : ℕ) (s : Store) : Store :=
  let s1 := s.push (dropna ["height_cm", "tournament_year"]
    ((s.read df).filter (fun r => r.category = some "BAT")))
  NATIONS.foldl (fun s nation =>
    s.push ((s.read df).filter (fun r => r.country = some nation))) s1

/-- table6: the dropna frame and the BAT view (the group height series are
column reads). -/
def table6_frames (df : ℕ) (s : Store) : Store :=
  let s1 := s.push (dropna ["height_cm", "region"] (s.read df))
  s1.push ((s1.read df).filter (fun r => r.category = some "BAT"))

/-- table7: one dropna slice per category plus the pre/post partitions built
in the candidate loop and for the segment fits. -/
def table7_frames (df : ℕ) (s : Store) : Store :=
  ["BAT", "FAST", "ALL"].foldl (fun s cat =>
    let s1 := s.push (dropna ["height_cm", "tournament_year"]
      (if cat = "ALL" then s.read df
       else (s.read df).filter (fun r => r.category = some cat)))
    candidate_years.foldl (fun s bp =>
      (s.push (preOf (s.read df) bp)).push (postOf (s.read df) bp)) s1) s

/-- table8: subset = df.dropna(subset=[...]).copy(), then the in-place
column conversion subset["era"] = subset["era"].astype(str) writes through
the reference of the fresh copy, never through df. -/
def table8_frames (df : ℕ) (s : Store) : Store :=
  s.push_write (dropna ["height_cm", "category", "era"] (s.read df)) astype_str_era

/-- table9: subset = df.dropna([...]).copy(); subset_m1 = subset.dropna then
pd.get_dummies builds a new frame; X = subset_m1[cols].copy() (the column
projection keeps the row values of the fixed schema, modelled by the copy)
and X.insert(0, "Intercept", 1.0) writes through X's reference; model 2
repeats the pattern with the population covariate. -/
def table9_frames (df : ℕ) (s : Store) : Store :=
  let subset := s.frames.length
  let s1 := s.push (dropna ["height_cm", "tournament_year", "country"] (s.read df))
  let m1 := s1.frames.length
  let s2 := s1.push (get_dummies_category
    (dropna ["height_cm", "tournament_year", "category"] (s1.read subset)))
  let s3 := s2.push_write (s2.read m1) insert_intercept
  let m2 := s3.frames.length
  let s4 := s3.push (get_dummies_category
    (dropna ["height_cm", "tournament_year", "pop_height_birth_cohort"] (s3.read subset)))
  s4.push_write (s4.read m2) insert_intercept

/-- table10: the five sensitivity selections (verified, unflagged, ODI, T20,
recent) are fresh masked frames; the FAST and BAT height series are column
reads. -/
def table10_frames (df : ℕ) (s : Store) : Store :=
  let s1 := s.push ((s.read df).filter (fun r => r.height_verified = some true))
  let s2 := s1.push ((s1.read df).filter
    (fun r => r.flag = none ∨ r.flag = some ""))
  let s3 := s2.push ((s2.read df).filter (fun r => r.format = some "ODI"))
  let s4 := s3.push ((s3.read df).filter (fun r => r.format = some "T20"))
  s4.push (dropna ["height_cm"]
    ((s4.read df).filter (fun r =>
      (r.tournament_year.map (fun y => decide ((2007 : ℚ) ≤ y))).getD false)))

/-- The module sequence of main, lines 741-749, applied to df_valid. -/
def run_all_frames (df : ℕ) (s : Store) : Store :=
  table10_frames df (table9_frames df (table8_frames df (table7_frames df
    (table6_frames df (table5_frames df (table4_frames df (table3_frames df
      (table2_frames df s))))))))

/-! ### Serialization: json.dump(all_results, cls=NumpyEncoder, default=str)

The results document is a Python tree of dicts, lists and scalars; engine
values that may survive into it from pandas are the numpy scalar wrappers.
json.dump maps it to the self-describing JSON tree: dict keys of type
str/int/float/bool/None are coerced to strings, np.float64 serializes as a
plain number (it subclasses float), and every other non-native object is
passed to the default hook. Because the call passes default=str, the
JSONEncoder constructor overrides the NumpyEncoder.default method with str,
so the remaining wrappers (np.int64, np.bool_) are emitted as their str()
strings. json.load reads the tree back with plain values and string keys. -/

/-- A dict key of the document: json.dump accepts exactly these key types. -/
inductive PyKey where
  | str (s : String)
  | int (z : ℤ)
  | float (q : ℚ)
  | bool (b : Bool)
  | none
deriving DecidableEq, Repr

/-- A value of the results document before serialization. -/
inductive PyVal where
  | none
  | bool (b : Bool)
  | int (z : ℤ)
  | float (q : ℚ)
  | str (s : String)
  | npBool (b : Bool)
  | npInt (z : ℤ)
  | npFloat (q : ℚ)
  | list (xs : List PyVal)
  | dict (kvs : List (PyKey × PyVal))

/-- The JSON exchange tree; the textual form keeps integer and non-integer
numbers apart ("5" versus "5.0"), so the tree does too. -/
inductive Json where
  | null
  | bool (b : Bool)
  | intNum (z : ℤ)
  | floatNum (q : ℚ)
  | str (s : String)
  | arr (xs : List Json)
  | obj (kvs : List (String × Json))

/-- The key coercion of json.dump: int, float, True/False and None keys
become the strings of their JSON spellings. -/
def dumpKey : PyKey → String
  | .str s => s
  | .int z => toString z
  | .float q => toString q
  | .bool b => if b then "true" else "false"
  | .none => "null"

/-- str() of a Python bool. -/
def pyBoolStr (b : Bool) : String := if b then "True" else "False"

/-- The value mapping of json.dump with cls=NumpyEncoder and default=str:
native scalars and np.float64 serialize natively, containers recurse with
key coercion, and the remaining numpy wrappers fall through to the default
hook, which the default=str keyword has set to str. -/
def dump : PyVal → Json
  | .none => .null
  | .bool b => .bool b
  | .int z => .intNum z
  | .float q => .floatNum q
  | .str s => .str s
  | .npFloat q => .floatNum q
  | .npInt z => .str (toString z)
  | .npBool b => .str (pyBoolStr b)
  | .list xs => .arr (xs.attach.map (fun x => dump x.1))
  | .dict kvs => .obj (kvs.attach.map (fun kv => (dumpKey kv.1.1, dump kv.1.2)))
decreasing_by
all_goals simp_wf
· have := List.sizeOf_lt_of_mem x.2
  omega
· have h1 := List.sizeOf_lt_of_mem kv.2
  rcases kv with ⟨⟨a, b⟩, hm⟩
  simp at h1 ⊢
  omega

/-- json.load of the exchange tree: plain values, all object keys strings. -/
def load : Json → PyVal
  | .null => .none
  | .bool b => .bool b
  | .intNum z => .int z
  | .floatNum q => .float q
  | .str s => .str s
  | .arr xs => .list (xs.attach.map (fun x => load x.1))
  | .obj kvs => .dict (kvs.attach.map (fun kv => (PyKey.str kv.1.1, load kv.1.2)))
decreasing_by
all_goals simp_wf
· have := List.sizeOf_lt_of_mem x.2
  omega
· have h1 := List.sizeOf_lt_of_mem kv.2
  rcases kv with ⟨⟨a, b⟩, hm⟩
  simp at h1 ⊢
  omega

/-- The documents whose keys are all strings and whose values are plain
(no numpy wrapper anywhere). -/
inductive PlainDoc : PyVal → Prop where
  | none : PlainDoc .none
  | bool (b : Bool) : PlainDoc (.bool b)
  | int (z : ℤ) : PlainDoc (.int z)
  | float (q : ℚ) : PlainDoc (.float q)
  | str (s : String) : PlainDoc (.str s)
  | list (xs : List PyVal) : (∀ x ∈ xs, PlainDoc x) → PlainDoc (.list xs)
  | dict (kvs : List (PyKey × PyVal)) :
      (∀ kv ∈ kvs, ∃ s, kv.1 = PyKey.str s) → (∀ kv ∈ kvs, PlainDoc kv.2) →
      PlainDoc (.dict kvs)

/-! ### Concrete sample data used to instantiate the general statements -/

/-- An observation with a category, a year and a height. -/
def obsRow (cat : String) (y h : ℚ) : Row :=
  { category := some cat, tournament_year := some y, height_cm := some h }

/-- An observation with a region and a height. -/
def regRow (reg : String) (h : ℚ) : Row :=
  { region := some reg, height_cm := some h }

/-- A fit kernel returning a fixed summary, standing in for statsmodels. -/
def fit0 : FitKernel := fun _ _ _ =>
  { r_squared := 0
    adj_r_squared := 0
    f_statistic := none
    f_pvalue := none
    coefficients :=
      [("tournament_year",
        { estimate := 1 / 3, std_err := 0, t_value := 0, p_value := 1 / 7,
          ci_lower := 0, ci_upper := 0 })] }

/-- A t-test kernel returning a fixed (t, p) pair. -/
def ttest0 : List ℚ → List ℚ → ℚ × ℚ := fun _ _ => (0, 1 / 2)

/-- An F-distribution CDF kernel returning 0 everywhere. -/
def fcdf0 : ℚ → ℕ → ℕ → ℚ := fun _ _ _ => 0

/-- A square-root kernel; the identity is nonnegative on nonnegatives. -/
def sqrt0 : ℚ → ℚ := fun x => x

/-- Five complete BAT observations and no WK observation. -/
def df0 : Frame :=
  [obsRow "BAT" 2000 180, obsRow "BAT" 2001 181, obsRow "BAT" 2002 182,
   obsRow "BAT" 2003 183, obsRow "BAT" 2004 184]

/-- The stored summary safe_ols produces from fit0 on a frame of 5 complete
rows. -/
def m0 : OLSResult :=
  { n := 5
    r_squared := 0
    adj_r_squared := 0
    f_statistic := none
    f_pvalue := none
    coefficients :=
      [("tournament_year",
        { estimate := 3333 / 10000, std_err := 0, t_value := 0,
          p_value := 142857 / 1000000, ci_lower := 0, ci_upper := 0 })] }

/-- A 10-row slice whose only valid candidate breakpoint is 1996; the heights
are constant, so every residual sum of squares is 0 and the Chow statistic of
the valid candidate is 0. -/
def bp10 : Frame :=
  [obsRow "BAT" 1994 180, obsRow "BAT" 1994 180, obsRow "BAT" 1995 180,
   obsRow "BAT" 1995 180, obsRow "BAT" 1996 180, obsRow "BAT" 1997 180,
   obsRow "BAT" 1997 180, obsRow "BAT" 1998 180, obsRow "BAT" 1998 180,
   obsRow "BAT" 1999 180]

/-- The breakpoint record of the sweep over bp10 with fcdf0 and fit0. -/
def bpRec0 : BreakpointRec :=
  { best_breakpoint := 1996
    f_statistic := 0
    p_value := 1
    significant := false
    pre_slope := some (3333 / 10000)
    post_slope := some (3333 / 10000) }

/-- Two regions with two observations each. -/
def df6 : Frame :=
  [regRow "Asia" 170, regRow "Asia" 171, regRow "Oceania" 180,
   regRow "Oceania" 181]

/-- Three FAST and three BAT observations, constant within each group, so
both sample variances and the pooled standard deviation are 0. -/
def df10 : Frame :=
  [obsRow "FAST" 2000 190, obsRow "FAST" 2001 190, obsRow "FAST" 2002 190,
   obsRow "BAT" 2000 180, obsRow "BAT" 2001 180, obsRow "BAT" 2002 180]

/-- The fast_vs_bat record produced on df10 with sqrt0 and ttest0. -/
def fb0 : FastVsBatRec :=
  { fast_mean := 190, bat_mean := 180, difference := 10, cohens_d := 0,
    t_statistic := 0, p_value := 1 / 2 }

/-- A store holding one frame. -/
def store0 : Store := { frames := [df0] }

/-- A document of the shape the engine produces for table2's by_era entry:
the inner mapping is keyed by the integer era values. -/
def eraDoc : PyVal :=
  PyVal.dict
    [(PyKey.str "count", PyVal.dict [(PyKey.int 1996, PyVal.int 7)])]

/-- A small all-string-keyed plain document. -/
def plainDoc0 : PyVal :=
  PyVal.dict
    [(PyKey.str "overall",
      PyVal.dict [(PyKey.str "n", PyVal.int 5),
                  (PyKey.str "mean_height", PyVal.float (181 / 1))])]

/-! ## Theorems -/

theorem rat_floor_eq_floor (q : ℚ) : q.floor = ⌊q⌋ :=
  (Rat.floor_def' q).trans Rat.floor_def.symm

theorem rhalfeven_intCast (z : ℤ) : rhalfeven (z : ℚ) = z := by
  unfold rhalfeven
  rw [rat_floor_eq_floor]
  norm_num

theorem roundTo_zero (d : ℕ) : roundTo d 0 = 0 := by
  unfold roundTo
  rw [show (0 : ℚ) * 10 ^ d = ((0 : ℤ) : ℚ) by push_cast; ring, rhalfeven_intCast]
  norm_num

theorem roundTo4_one_third : roundTo 4 (1 / 3 : ℚ) = 3333 / 10000 := by
  unfold roundTo rhalfeven
  rw [rat_floor_eq_floor]
  norm_num

theorem roundTo6_one_seventh : roundTo 6 (1 / 7 : ℚ) = 142857 / 1000000 := by
  unfold roundTo rhalfeven
  rw [rat_floor_eq_floor]
  norm_num

/-- Rounding is idempotent: a value already stored at d decimal places is its
own rounding. -/
theorem roundTo_idem (d : ℕ) (x : ℚ) : roundTo d (roundTo d x) = roundTo d x := by
  unfold roundTo
  have h10 : ((10 : ℚ) ^ d) ≠ 0 := by positivity
  rw [div_mul_cancel₀ _ h10, rhalfeven_intCast]

/-- C2: for every regression request, the fit fails (returns no model)
exactly when fewer than 5 rows remain after dropping the rows with a missing
value in any column named by the formula; with 5 or more complete rows a
model is fitted. In particular 4 complete rows are rejected and 5 succeed. -/
theorem safe_ols_row_threshold (fit : FitKernel) (response : String)
    (predictors : List String) (data : Frame) :
    ((safe_ols fit response predictors data).isSome ↔
      5 ≤ (dropna (response :: predictors) data).length) ∧
    (safe_ols fit response predictors data = none ↔
      (dropna (response :: predictors) data).length < 5) := by
  by_cases h : (dropna (response :: predictors) data).length < 5
  all_goals simp [safe_ols, h]
  all_goals omega

/-- C6: every coefficient-level value stored by safe_ols (estimate, standard
error, t value, confidence bounds) is a fixed point of rounding to 4 decimal
places, and every stored coefficient p value a fixed point of rounding to 6:
the stored values are exactly the rounded ones. -/
theorem safe_ols_rounding_spec (fit : FitKernel) (response : String)
    (predictors : List String) (data : Frame) (m : OLSResult)
    (hm : safe_ols fit response predictors data = some m) :
    ∀ kc ∈ m.coefficients,
      roundTo 4 kc.2.estimate = kc.2.estimate ∧
      roundTo 4 kc.2.std_err = kc.2.std_err ∧
      roundTo 4 kc.2.t_value = kc.2.t_value ∧
      roundTo 4 kc.2.ci_lower = kc.2.ci_lower ∧
      roundTo 4 kc.2.ci_upper = kc.2.ci_upper ∧
      roundTo 6 kc.2.p_value = kc.2.p_value := by
  unfold safe_ols at hm
  by_cases h : (dropna (response :: predictors) data).length < 5
  · simp [h] at hm
  · simp [h] at hm
    intro kc hkc
    rw [← hm] at hkc
    simp only [List.mem_map] at hkc
    obtain ⟨a, _, rfl⟩ := hkc
    refine ⟨?_, ?_, ?_, ?_, ?_, ?_⟩ <;> exact roundTo_idem _ _

theorem safe_ols_fit0_eval (l : Frame)
    (hd : dropna ["height_cm", "tournament_year"] l = l) (hl : l.length = 5) :
    safe_ols fit0 "height_cm" ["tournament_year"] l = some m0 := by
  unfold safe_ols
  rw [hd]
  norm_num [hl, fit0, m0, roundTo_zero, roundTo4_one_third, roundTo6_one_seventh]

theorem safe_ols_fit0_df0 : safe_ols fit0 "height_cm" ["tournament_year"] df0 = some m0 :=
  safe_ols_fit0_eval df0 (by decide) (by decide)

/-- Witness: on five complete rows the fit succeeds and every stored
coefficient value is rounding-stable. -/
theorem safe_ols_rounding_spec_witness :
    safe_ols fit0 "height_cm" ["tournament_year"] df0 = some m0 ∧
    ∀ kc ∈ m0.coefficients,
      roundTo 4 kc.2.estimate = kc.2.estimate ∧
      roundTo 4 kc.2.std_err = kc.2.std_err ∧
      roundTo 4 kc.2.t_value = kc.2.t_value ∧
      roundTo 4 kc.2.ci_lower = kc.2.ci_lower ∧
      roundTo 4 kc.2.ci_upper = kc.2.ci_upper ∧
      roundTo 6 kc.2.p_value = kc.2.p_value :=
  ⟨safe_ols_fit0_df0,
   safe_ols_rounding_spec fit0 "height_cm" ["tournament_year"] df0 m0 safe_ols_fit0_df0⟩

theorem lookup_eq_none_of_ne {β : Type} (k : String) (l : List (String × β))
    (h : ∀ p ∈ l, p.1 ≠ k) : l.lookup k = none := by
  induction l with
  | nil => rfl
  | cons p t ih =>
    have hp : (k == p.1) = false :=
      beq_eq_false_iff_ne.mpr (fun he => h p (List.mem_cons_self p t) he.symm)
    simp only [List.lookup, hp]
    exact ih (fun q hq => h q (List.mem_cons_of_mem p hq))

/-- C1 (amended): a category slice of table3 with fewer than 5 complete rows
is skipped silently as far as the results document is concerned: the document
contains no entry at all under that category (the skip and its row count are
reported only on the console), and the run continues without a crash. -/
theorem table3_skipped_slice_absent (fit : FitKernel) (df : Frame) (cat : String)
    (hcat : cat ∈ CATEGORIES)
    (hlt : (dropna ["height_cm", "tournament_year"]
      (df.filter (fun r => r.category = some cat))).length < 5) :
    (table3_unadjusted_regression fit df).lookup cat = none := by
  have hcases : cat = "WK" ∨ cat = "BAT" ∨ cat = "FAST" ∨ cat = "SPIN" := by
    simpa [CATEGORIES] using hcat
  have hne_all : ("ALL" : String) ≠ cat := by
    rcases hcases with rfl | rfl | rfl | rfl <;> decide
  unfold table3_unadjusted_regression
  apply lookup_eq_none_of_ne
  intro p hp
  have hp' : p ∈ CATEGORIES.filterMap (fun c =>
      let subset := dropna ["height_cm", "tournament_year"]
        (df.filter (fun r => r.category = some c))
      if subset.length < 5 then none
      else some (c, safe_ols fit "height_cm" ["tournament_year"] subset)) ∨
      p = ("ALL", safe_ols fit "height_cm" ["tournament_year"]
        (dropna ["height_cm", "tournament_year"] df)) := by
    by_cases hall : 5 ≤ (dropna ["height_cm", "tournament_year"] df).length
    · rw [if_pos hall] at hp
      rcases List.mem_append.mp hp with h | h
      · exact Or.inl h
      · simp at h
        exact Or.inr h
    · rw [if_neg hall] at hp
      exact Or.inl hp
  rcases hp' with h | rfl
  · obtain ⟨c, hc, heq⟩ := List.mem_filterMap.mp h
    by_cases hlt5 : (dropna ["height_cm", "tournament_year"]
        (df.filter (fun r => r.category = some c))).length < 5
    · rw [if_pos hlt5] at heq
      exact absurd heq (by simp)
    · rw [if_neg hlt5] at heq
      obtain rfl := Option.some_injective _ heq
      intro hpk
      rw [show c = cat from hpk] at hlt5
      exact hlt5 hlt
  · exact hne_all

/-- C1 (counterexample): a frame whose WK slice has fewer than 5 rows is
skipped by table3, yet the results document contains no entry at all under
"WK": the skip is not recorded, refuting the claim that every skipped slice
leaves an explicit entry with its row count. -/
theorem table3_skip_leaves_no_entry_example :
    (dropna ["height_cm", "tournament_year"]
      (df0.filter (fun r => r.category = some "WK"))).length < 5 ∧
    (table3_unadjusted_regression fit0 df0).lookup "WK" = none := by
  constructor
  · decide
  · decide

/-- Witness for the amended C1 statement at a concrete frame. -/
theorem table3_skipped_slice_absent_witness :
    ("WK" ∈ CATEGORIES) ∧
    ((dropna ["height_cm", "tournament_year"]
      (df0.filter (fun r => r.category = some "WK"))).length < 5) ∧
    (table3_unadjusted_regression fit0 df0).lookup "WK" = none :=
  ⟨by decide, by decide,
   table3_skipped_slice_absent fit0 df0 "WK" (by decide) (by decide)⟩

/-- C7: a missing input file or an input with no valid-height row makes the
run fail immediately: main returns an error and no results document (partial
or otherwise) is produced; no analysis module output appears. -/
theorem malformed_input_aborts (fit : FitKernel) (ttest : List ℚ → List ℚ → ℚ × ℚ)
    (fcdf : ℚ → ℕ → ℕ → ℚ) (sqrtF : ℚ → ℚ) (input : Option Frame)
    (h : input = none ∨
      ∃ df, input = some df ∧ df.filter (fun r => r.height_cm.isSome) = []) :
    ∃ msg, run_analysis_main fit ttest fcdf sqrtF input = Except.error msg := by
  rcases h with rfl | ⟨df, rfl, hdf⟩
  · exact ⟨_, rfl⟩
  · refine ⟨"ERROR: No records with valid height data.", ?_⟩
    simp [run_analysis_main, hdf]

/-- Witness: the missing-file input aborts. -/
theorem malformed_input_aborts_witness :
    ((none : Option Frame) = none ∨
      ∃ df, (none : Option Frame) = some df ∧
        df.filter (fun r => r.height_cm.isSome) = []) ∧
    ∃ msg, run_analysis_main fit0 ttest0 fcdf0 sqrt0 none = Except.error msg :=
  ⟨Or.inl rfl, malformed_input_aborts fit0 ttest0 fcdf0 sqrt0 none (Or.inl rfl)⟩

theorem pairs_of_length_mul (l : List String) :
    2 * (pairs_of l).length = l.length * (l.length - 1) := by
  induction l with
  | nil => rfl
  | cons a t ih =>
    simp only [pairs_of, List.length_append, List.length_map, List.length_cons,
      Nat.add_sub_cancel]
    have h2 : t.length * (t.length - 1) + 2 * t.length = (t.length + 1) * t.length := by
      cases t with
      | nil => rfl
      | cons b t' =>
        simp only [List.length_cons, Nat.add_sub_cancel]
        ring
    linarith [ih, h2]

/-- C5: with k valid groups (k at least 2), the pairwise post-hoc branch
compares every unordered pair once, producing exactly C = k(k-1)/2 entries;
each entry stores the Welch t statistic (rounded to 4 places) and the
adjusted p value min(p * C, 1.0) (rounded to 6 places); and whenever the raw
p value is a probability, the adjusted value min(p * C, 1.0) is at least the
raw p value and at most 1.0. -/
theorem pairwise_bonferroni_spec (ttest : List ℚ → List ℚ → ℚ × ℚ) (df : Frame)
    (hk : 2 ≤ (valid_regions (dropna ["height_cm", "region"] df)).length)
    (hp : ∀ g1 g2 : List ℚ, 0 ≤ (ttest g1 g2).2 ∧ (ttest g1 g2).2 ≤ 1) :
    (table6_pairwise ttest df).length =
      (valid_regions (dropna ["height_cm", "region"] df)).length *
        ((valid_regions (dropna ["height_cm", "region"] df)).length - 1) / 2 ∧
    table6_pairwise ttest df =
      (pairs_of (valid_regions (dropna ["height_cm", "region"] df))).map (fun pr =>
        { pair := pr.1 ++ " vs " ++ pr.2
          t := roundTo 4 (ttest
            (region_heights (dropna ["height_cm", "region"] df) pr.1)
            (region_heights (dropna ["height_cm", "region"] df) pr.2)).1
          p_adj := roundTo 6 (min ((ttest
            (region_heights (dropna ["height_cm", "region"] df) pr.1)
            (region_heights (dropna ["height_cm", "region"] df) pr.2)).2 *
            ((valid_regions (dropna ["height_cm", "region"] df)).length *
              ((valid_regions (dropna ["height_cm", "region"] df)).length - 1) / 2 : ℕ)) 1) }) ∧
    ∀ pr ∈ pairs_of (valid_regions (dropna ["height_cm", "region"] df)),
      (ttest (region_heights (dropna ["height_cm", "region"] df) pr.1)
        (region_heights (dropna ["height_cm", "region"] df) pr.2)).2 ≤
        min ((ttest (region_heights (dropna ["height_cm", "region"] df) pr.1)
          (region_heights (dropna ["height_cm", "region"] df) pr.2)).2 *
          ((valid_regions (dropna ["height_cm", "region"] df)).length *
            ((valid_regions (dropna ["height_cm", "region"] df)).length - 1) / 2 : ℕ)) 1 ∧
      min ((ttest (region_heights (dropna ["height_cm", "region"] df) pr.1)
        (region_heights (dropna ["height_cm", "region"] df) pr.2)).2 *
        ((valid_regions (dropna ["height_cm", "region"] df)).length *
          ((valid_regions (dropna ["height_cm", "region"] df)).length - 1) / 2 : ℕ)) 1 ≤ 1 := by
  have hguard : ¬ ((valid_regions (dropna ["height_cm", "region"] df)).length < 2) := by
    omega
  have hC1 : 1 ≤ (valid_regions (dropna ["height_cm", "region"] df)).length *
      ((valid_regions (dropna ["height_cm", "region"] df)).length - 1) / 2 := by
    rw [Nat.le_div_iff_mul_le (by norm_num)]
    have := Nat.mul_le_mul hk
      (show 1 ≤ (valid_regions (dropna ["height_cm", "region"] df)).length - 1 by omega)
    omega
  refine ⟨?_, ?_, ?_⟩
  · have hlen := pairs_of_length_mul (valid_regions (dropna ["height_cm", "region"] df))
    simp only [table6_pairwise, if_neg hguard, List.length_map]
    omega
  · simp only [table6_pairwise, if_neg hguard]
  · intro pr _
    have hp0 := (hp (region_heights (dropna ["height_cm", "region"] df) pr.1)
      (region_heights (dropna ["height_cm", "region"] df) pr.2)).1
    have hp1 := (hp (region_heights (dropna ["height_cm", "region"] df) pr.1)
      (region_heights (dropna ["height_cm", "region"] df) pr.2)).2
    have hC1q : (1 : ℚ) ≤ ((valid_regions (dropna ["height_cm", "region"] df)).length *
        ((valid_regions (dropna ["height_cm", "region"] df)).length - 1) / 2 : ℕ) := by
      exact_mod_cast hC1
    constructor
    · rcases le_or_lt ((ttest (region_heights (dropna ["height_cm", "region"] df) pr.1)
        (region_heights (dropna ["height_cm", "region"] df) pr.2)).2 *
        ((valid_regions (dropna ["height_cm", "region"] df)).length *
          ((valid_regions (dropna ["height_cm", "region"] df)).length - 1) / 2 : ℕ)) 1 with hle | hlt
      · rw [min_eq_left hle]
        nlinarith
      · rw [min_eq_right hlt.le]
        exact hp1
    · exact min_le_right _ _

/-- Witness: two valid regions of two rows each give exactly one pairwise
comparison. -/
theorem pairwise_bonferroni_spec_witness :
    2 ≤ (valid_regions (dropna ["height_cm", "region"] df6)).length ∧
    (∀ g1 g2 : List ℚ, 0 ≤ (ttest0 g1 g2).2 ∧ (ttest0 g1 g2).2 ≤ 1) ∧
    (table6_pairwise ttest0 df6).length = 1 := by
  have hk : 2 ≤ (valid_regions (dropna ["height_cm", "region"] df6)).length := by decide
  have hp : ∀ g1 g2 : List ℚ, 0 ≤ (ttest0 g1 g2).2 ∧ (ttest0 g1 g2).2 ≤ 1 := by
    intro g1 g2
    constructor <;> norm_num [ttest0]
  refine ⟨hk, hp, ?_⟩
  rw [(pairwise_bonferroni_spec ttest0 df6 hk hp).1]
  decide

theorem roundTo_intCast (d : ℕ) (z : ℤ) : roundTo d (z : ℚ) = (z : ℚ) := by
  unfold roundTo
  rw [show (z : ℚ) * 10 ^ d = ((z * 10 ^ d : ℤ) : ℚ) by push_cast; ring, rhalfeven_intCast]
  push_cast
  exact mul_div_cancel_right₀ _ (by positivity)

theorem roundTo6_half : roundTo 6 (1 / 2 : ℚ) = 1 / 2 := by
  unfold roundTo rhalfeven
  rw [rat_floor_eq_floor]
  norm_num

/-- C10: whenever the FAST and BAT groups both have at least 3 non-missing
heights (the condition under which the effect size is computed at all), the
Cohen's d of line 690 is 0 when the pooled standard deviation
sqrt((sd_FAST^2 + sd_BAT^2)/2) is zero, and is the mean difference divided by
that pooled standard deviation otherwise; the stored cohens_d is its rounding
to 4 places. The only assumption on the abstracted np.sqrt is that it is
nonnegative on nonnegative arguments. -/
theorem cohens_d_division_guard (sqrtF : ℚ → ℚ) (ttest : List ℚ → List ℚ → ℚ × ℚ)
    (df : Frame) (rec : FastVsBatRec)
    (hs : ∀ x : ℚ, 0 ≤ x → 0 ≤ sqrtF x)
    (hrec : table10_fast_vs_bat sqrtF ttest df = some rec) :
    3 ≤ ((df.filter (fun r => r.category = some "FAST")).filterMap
      (fun r => r.height_cm)).length ∧
    3 ≤ ((df.filter (fun r => r.category = some "BAT")).filterMap
      (fun r => r.height_cm)).length ∧
    (pooled_sd_of sqrtF
        ((df.filter (fun r => r.category = some "FAST")).filterMap (fun r => r.height_cm))
        ((df.filter (fun r => r.category = some "BAT")).filterMap (fun r => r.height_cm)) = 0 →
      cohens_d_guarded sqrtF
        ((df.filter (fun r => r.category = some "FAST")).filterMap (fun r => r.height_cm))
        ((df.filter (fun r => r.category = some "BAT")).filterMap (fun r => r.height_cm)) = 0) ∧
    (pooled_sd_of sqrtF
        ((df.filter (fun r => r.category = some "FAST")).filterMap (fun r => r.height_cm))
        ((df.filter (fun r => r.category = some "BAT")).filterMap (fun r => r.height_cm)) ≠ 0 →
      cohens_d_guarded sqrtF
        ((df.filter (fun r => r.category = some "FAST")).filterMap (fun r => r.height_cm))
        ((df.filter (fun r => r.category = some "BAT")).filterMap (fun r => r.height_cm)) =
        (mean ((df.filter (fun r => r.category = some "FAST")).filterMap (fun r => r.height_cm)) -
          mean ((df.filter (fun r => r.category = some "BAT")).filterMap (fun r => r.height_cm))) /
          pooled_sd_of sqrtF
            ((df.filter (fun r => r.category = some "FAST")).filterMap (fun r => r.height_cm))
            ((df.filter (fun r => r.category = some "BAT")).filterMap (fun r => r.height_cm))) ∧
    rec.cohens_d = roundTo 4 (cohens_d_guarded sqrtF
      ((df.filter (fun r => r.category = some "FAST")).filterMap (fun r => r.height_cm))
      ((df.filter (fun r => r.category = some "BAT")).filterMap (fun r => r.height_cm))) := by
  unfold table10_fast_vs_bat at hrec
  by_cases hg : 3 ≤ ((df.filter (fun r => r.category = some "FAST")).filterMap
      (fun r => r.height_cm)).length ∧
      3 ≤ ((df.filter (fun r => r.category = some "BAT")).filterMap
        (fun r => r.height_cm)).length
  · simp only [if_pos hg, Option.some.injEq] at hrec
    refine ⟨hg.1, hg.2, ?_, ?_, ?_⟩
    · intro h0
      simp [cohens_d_guarded, h0]
    · intro hne
      have h0le : 0 ≤ pooled_sd_of sqrtF
          ((df.filter (fun r => r.category = some "FAST")).filterMap (fun r => r.height_cm))
          ((df.filter (fun r => r.category = some "BAT")).filterMap (fun r => r.height_cm)) :=
        hs _ (by positivity)
      have hpos := lt_of_le_of_ne h0le (Ne.symm hne)
      simp [cohens_d_guarded, if_pos hpos]
    · rw [← hrec]
  · simp only [if_neg hg] at hrec
    exact absurd hrec (by simp)

theorem table10_df10 : table10_fast_vs_bat sqrt0 ttest0 df10 = some fb0 := by
  have hfast : (df10.filter (fun r => r.category = some "FAST")).filterMap
      (fun r => r.height_cm) = [190, 190, 190] := by decide
  have hbat : (df10.filter (fun r => r.category = some "BAT")).filterMap
      (fun r => r.height_cm) = [180, 180, 180] := by decide
  have hmf : mean [(190 : ℚ), 190, 190] = 190 := by
    norm_num [mean]
  have hmb : mean [(180 : ℚ), 180, 180] = 180 := by
    norm_num [mean]
  have hvf : sample_var [(190 : ℚ), 190, 190] = 0 := by
    norm_num [sample_var, hmf]
  have hvb : sample_var [(180 : ℚ), 180, 180] = 0 := by
    norm_num [sample_var, hmb]
  have hpsd : pooled_sd_of sqrt0 [(190 : ℚ), 190, 190] [(180 : ℚ), 180, 180] = 0 := by
    norm_num [pooled_sd_of, sqrt0, hvf, hvb]
  have hd : cohens_d_guarded sqrt0 [(190 : ℚ), 190, 190] [(180 : ℚ), 180, 180] = 0 := by
    simp [cohens_d_guarded, hpsd]
  unfold table10_fast_vs_bat
  rw [hfast, hbat]
  have h190 : roundTo 2 (190 : ℚ) = 190 := by exact_mod_cast roundTo_intCast 2 190
  have h180 : roundTo 2 (180 : ℚ) = 180 := by exact_mod_cast roundTo_intCast 2 180
  have h10 : roundTo 2 (10 : ℚ) = 10 := by exact_mod_cast roundTo_intCast 2 10
  norm_num [hmf, hmb, hd, h190, h180, h10, roundTo_zero, roundTo6_half, ttest0, fb0]

/-- Witness: constant heights in each group give zero pooled standard
deviation and a reported Cohen's d of 0, by the division-guard theorem
applied to the concrete frame. -/
theorem cohens_d_division_guard_witness :
    (∀ x : ℚ, 0 ≤ x → 0 ≤ sqrt0 x) ∧
    table10_fast_vs_bat sqrt0 ttest0 df10 = some fb0 ∧
    (3 ≤ ((df10.filter (fun r => r.category = some "FAST")).filterMap
      (fun r => r.height_cm)).length ∧
    3 ≤ ((df10.filter (fun r => r.category = some "BAT")).filterMap
      (fun r => r.height_cm)).length ∧
    (pooled_sd_of sqrt0
        ((df10.filter (fun r => r.category = some "FAST")).filterMap (fun r => r.height_cm))
        ((df10.filter (fun r => r.category = some "BAT")).filterMap (fun r => r.height_cm)) = 0 →
      cohens_d_guarded sqrt0
        ((df10.filter (fun r => r.category = some "FAST")).filterMap (fun r => r.height_cm))
        ((df10.filter (fun r => r.category = some "BAT")).filterMap (fun r => r.height_cm)) = 0) ∧
    (pooled_sd_of sqrt0
        ((df10.filter (fun r => r.category = some "FAST")).filterMap (fun r => r.height_cm))
        ((df10.filter (fun r => r.category = some "BAT")).filterMap (fun r => r.height_cm)) ≠ 0 →
      cohens_d_guarded sqrt0
        ((df10.filter (fun r => r.category = some "FAST")).filterMap (fun r => r.height_cm))
        ((df10.filter (fun r => r.category = some "BAT")).filterMap (fun r => r.height_cm)) =
        (mean ((df10.filter (fun r => r.category = some "FAST")).filterMap (fun r => r.height_cm)) -
          mean ((df10.filter (fun r => r.category = some "BAT")).filterMap (fun r => r.height_cm))) /
          pooled_sd_of sqrt0
            ((df10.filter (fun r => r.category = some "FAST")).filterMap (fun r => r.height_cm))
            ((df10.filter (fun r => r.category = some "BAT")).filterMap (fun r => r.height_cm))) ∧
    fb0.cohens_d = roundTo 4 (cohens_d_guarded sqrt0
      ((df10.filter (fun r => r.category = some "FAST")).filterMap (fun r => r.height_cm))
      ((df10.filter (fun r => r.category = some "BAT")).filterMap (fun r => r.height_cm)))) :=
  ⟨fun _ hx => hx, table10_df10,
   cohens_d_division_guard sqrt0 ttest0 df10 fb0 (fun _ hx => hx) table10_df10⟩

/-! ### Least-squares optimality of the fitted line

The §8 testable property: the coefficients returned by the fitter minimise
the sum of squared residuals. This is also what makes the Chow statistic of
every valid candidate nonnegative, which the selection loop's initial
best_f = -1 silently relies on. -/

theorem sum_sq_fn_nonneg (f : (ℚ × ℚ) → ℚ) (pts : List (ℚ × ℚ)) :
    0 ≤ (pts.map (fun p => (f p) ^ 2)).sum := by
  induction pts with
  | nil => simp
  | cons p t ih =>
    simp only [List.map_cons, List.sum_cons]
    have := sq_nonneg (f p)
    linarith

theorem rss_nonneg (L : Line) (pts : List (ℚ × ℚ)) : 0 ≤ rss L pts :=
  sum_sq_fn_nonneg (fun p => p.2 - L.at p.1) pts

theorem rss_expand (L : Line) (pts : List (ℚ × ℚ)) :
    rss L pts = sumYY pts - 2 * L.intercept * sumY pts - 2 * L.slope * sumXY pts
      + 2 * L.intercept * L.slope * sumX pts + L.intercept ^ 2 * (pts.length : ℚ)
      + L.slope ^ 2 * sumXX pts := by
  induction pts with
  | nil => simp [rss, sumYY, sumY, sumXY, sumX, sumXX]
  | cons p t ih =>
    simp only [rss, sumYY, sumY, sumXY, sumX, sumXX, List.map_cons, List.sum_cons,
      List.length_cons, Line.at] at ih ⊢
    push_cast
    linear_combination ih

theorem sub_sq_sum_fst (c : ℚ) (pts : List (ℚ × ℚ)) :
    (pts.map (fun p => (p.1 - c) ^ 2)).sum
      = sumXX pts - 2 * c * sumX pts + c ^ 2 * (pts.length : ℚ) := by
  induction pts with
  | nil => simp [sumXX, sumX]
  | cons p t ih =>
    simp only [sumXX, sumX, List.map_cons, List.sum_cons, List.length_cons] at ih ⊢
    push_cast
    linear_combination ih

theorem sub_sq_sum_snd (c : ℚ) (pts : List (ℚ × ℚ)) :
    (pts.map (fun p => (p.2 - c) ^ 2)).sum
      = sumYY pts - 2 * c * sumY pts + c ^ 2 * (pts.length : ℚ) := by
  induction pts with
  | nil => simp [sumYY, sumY]
  | cons p t ih =>
    simp only [sumYY, sumY, List.map_cons, List.sum_cons, List.length_cons] at ih ⊢
    push_cast
    linear_combination ih

theorem sum_sq_fn_eq_zero (f : (ℚ × ℚ) → ℚ) (pts : List (ℚ × ℚ))
    (h : (pts.map (fun p => (f p) ^ 2)).sum = 0) : ∀ p ∈ pts, f p = 0 := by
  induction pts with
  | nil => simp
  | cons p t ih =>
    simp only [List.map_cons, List.sum_cons] at h
    have h1 : 0 ≤ (t.map (fun p => (f p) ^ 2)).sum := sum_sq_fn_nonneg f t
    have h2 : (f p) ^ 2 = 0 := by nlinarith [sq_nonneg (f p)]
    intro q hq
    rcases List.mem_cons.mp hq with rfl | hq'
    · exact pow_eq_zero_iff (by norm_num) |>.mp h2
    · exact ih (by linarith [sq_nonneg (f p)]) q hq'

theorem length_pos_q (pts : List (ℚ × ℚ)) (hne : pts ≠ []) :
    (0 : ℚ) < (pts.length : ℚ) := by
  have := List.length_pos.mpr hne
  exact_mod_cast this

theorem det_nonneg (pts : List (ℚ × ℚ)) :
    0 ≤ (pts.length : ℚ) * sumXX pts - (sumX pts) ^ 2 := by
  rcases eq_or_ne pts [] with rfl | hne
  · simp [sumXX, sumX]
  · have hn := length_pos_q pts hne
    have hs := sum_sq_fn_nonneg (fun p => p.1 - sumX pts / (pts.length : ℚ)) pts
    rw [sub_sq_sum_fst] at hs
    have key : sumXX pts - 2 * (sumX pts / (pts.length : ℚ)) * sumX pts
        + (sumX pts / (pts.length : ℚ)) ^ 2 * (pts.length : ℚ)
        = ((pts.length : ℚ) * sumXX pts - (sumX pts) ^ 2) / (pts.length : ℚ) := by
      field_simp
      ring
    rw [key] at hs
    have h2 := mul_nonneg hs hn.le
    rwa [div_mul_cancel₀ _ (ne_of_gt hn)] at h2

theorem x_const_of_det_zero (pts : List (ℚ × ℚ)) (hne : pts ≠ [])
    (hd : (pts.length : ℚ) * sumXX pts - (sumX pts) ^ 2 = 0) :
    ∀ p ∈ pts, p.1 = sumX pts / (pts.length : ℚ) := by
  have hn := length_pos_q pts hne
  have hsum : (pts.map (fun p => (p.1 - sumX pts / (pts.length : ℚ)) ^ 2)).sum = 0 := by
    rw [sub_sq_sum_fst]
    have key : sumXX pts - 2 * (sumX pts / (pts.length : ℚ)) * sumX pts
        + (sumX pts / (pts.length : ℚ)) ^ 2 * (pts.length : ℚ)
        = ((pts.length : ℚ) * sumXX pts - (sumX pts) ^ 2) / (pts.length : ℚ) := by
      field_simp
      ring
    rw [key, hd, zero_div]
  intro p hp
  have := sum_sq_fn_eq_zero _ pts hsum p hp
  linarith [this]

theorem rss_const_x (L : Line) (pts : List (ℚ × ℚ)) (c : ℚ)
    (hc : ∀ p ∈ pts, p.1 = c) :
    rss L pts = (pts.map (fun p => (p.2 - (L.intercept + L.slope * c)) ^ 2)).sum := by
  unfold rss Line.at
  apply congrArg List.sum
  apply List.map_congr_left
  intro p hp
  rw [hc p hp]

theorem mean_min_snd (pts : List (ℚ × ℚ)) (hne : pts ≠ []) (t : ℚ) :
    (pts.map (fun p => (p.2 - sumY pts / (pts.length : ℚ)) ^ 2)).sum
      ≤ (pts.map (fun p => (p.2 - t) ^ 2)).sum := by
  have hn := length_pos_q pts hne
  rw [sub_sq_sum_snd, sub_sq_sum_snd]
  have e1 : sumYY pts - 2 * (sumY pts / (pts.length : ℚ)) * sumY pts
      + (sumY pts / (pts.length : ℚ)) ^ 2 * (pts.length : ℚ)
      = sumYY pts - (sumY pts) ^ 2 / (pts.length : ℚ) := by
    field_simp
    ring
  have e2 : sumYY pts - 2 * t * sumY pts + t ^ 2 * (pts.length : ℚ)
      - (sumYY pts - (sumY pts) ^ 2 / (pts.length : ℚ))
      = (t * (pts.length : ℚ) - sumY pts) ^ 2 / (pts.length : ℚ) := by
    field_simp
    ring
  have e3 : 0 ≤ (t * (pts.length : ℚ) - sumY pts) ^ 2 / (pts.length : ℚ) :=
    div_nonneg (sq_nonneg _) hn.le
  linarith

/-- The fitted line minimises the residual sum of squares among all lines. -/
theorem fitLine_min (pts : List (ℚ × ℚ)) (L : Line) :
    rss (fitLine pts) pts ≤ rss L pts := by
  rcases eq_or_ne pts [] with rfl | hne
  · simp [rss]
  have hn := length_pos_q pts hne
  by_cases hd : (pts.length : ℚ) * sumXX pts - (sumX pts) ^ 2 = 0
  · have hc := x_const_of_det_zero pts hne hd
    have hfit : fitLine pts = { slope := 0, intercept := sumY pts / (pts.length : ℚ) } := by
      simp only [fitLine]
      rw [hd]
      simp
    calc rss (fitLine pts) pts
        = (pts.map (fun p => (p.2 - sumY pts / (pts.length : ℚ)) ^ 2)).sum := by
          rw [hfit, rss_const_x _ pts _ hc]
          simp
      _ ≤ (pts.map (fun p =>
            (p.2 - (L.intercept + L.slope * (sumX pts / (pts.length : ℚ)))) ^ 2)).sum :=
          mean_min_snd pts hne _
      _ = rss L pts := (rss_const_x L pts _ hc).symm
  · have hdpos : 0 < (pts.length : ℚ) * sumXX pts - (sumX pts) ^ 2 :=
      lt_of_le_of_ne (det_nonneg pts) (Ne.symm hd)
    have hid : rss L pts - rss (fitLine pts) pts
        = (((pts.length : ℚ) * sumXX pts - (sumX pts) ^ 2) / (pts.length : ℚ)) *
            (L.slope - ((pts.length : ℚ) * sumXY pts - sumX pts * sumY pts) /
              ((pts.length : ℚ) * sumXX pts - (sumX pts) ^ 2)) ^ 2
          + (pts.length : ℚ) *
            (sumY pts / (pts.length : ℚ) - L.intercept
              - L.slope * (sumX pts / (pts.length : ℚ))) ^ 2 := by
      rw [rss_expand L pts, rss_expand (fitLine pts) pts]
      simp only [fitLine]
      field_simp
      ring
    have h1 : 0 ≤ (((pts.length : ℚ) * sumXX pts - (sumX pts) ^ 2) / (pts.length : ℚ)) *
        (L.slope - ((pts.length : ℚ) * sumXY pts - sumX pts * sumY pts) /
          ((pts.length : ℚ) * sumXX pts - (sumX pts) ^ 2)) ^ 2 :=
      mul_nonneg (div_nonneg hdpos.le hn.le) (sq_nonneg _)
    have h2 : 0 ≤ (pts.length : ℚ) *
        (sumY pts / (pts.length : ℚ) - L.intercept
          - L.slope * (sumX pts / (pts.length : ℚ))) ^ 2 :=
      mul_nonneg hn.le (sq_nonneg _)
    linarith

/-! ### The Chow statistic of a valid candidate is nonnegative -/

theorem ptsOf_preOf (subset : Frame) (bp : ℚ) :
    ptsOf (preOf subset bp) = (ptsOf subset).filter (fun p => decide (p.1 ≤ bp)) := by
  induction subset with
  | nil => rfl
  | cons r t ih =>
    rcases hy : r.tournament_year with _ | y
    · simpa [preOf, ptsOf, List.filter_cons, List.filterMap_cons, hy] using ih
    · rcases hh : r.height_cm with _ | h
      · by_cases hle : y ≤ bp
        all_goals
          simpa [preOf, ptsOf, List.filter_cons, List.filterMap_cons, hy, hh, hle]
            using ih
      · by_cases hle : y ≤ bp
        all_goals
          simpa [preOf, ptsOf, List.filter_cons, List.filterMap_cons, hy, hh, hle]
            using ih

theorem ptsOf_postOf (subset : Frame) (bp : ℚ) :
    ptsOf (postOf subset bp) = (ptsOf subset).filter (fun p => decide (bp < p.1)) := by
  induction subset with
  | nil => rfl
  | cons r t ih =>
    rcases hy : r.tournament_year with _ | y
    · simpa [postOf, ptsOf, List.filter_cons, List.filterMap_cons, hy] using ih
    · rcases hh : r.height_cm with _ | h
      · by_cases hlt : bp < y
        all_goals
          simpa [postOf, ptsOf, List.filter_cons, List.filterMap_cons, hy, hh, hlt]
            using ih
      · by_cases hlt : bp < y
        all_goals
          simpa [postOf, ptsOf, List.filter_cons, List.filterMap_cons, hy, hh, hlt]
            using ih

theorem rss_filter_split (L : Line) (pts : List (ℚ × ℚ)) (bp : ℚ) :
    rss L (pts.filter (fun p => decide (p.1 ≤ bp)))
      + rss L (pts.filter (fun p => decide (bp < p.1))) = rss L pts := by
  induction pts with
  | nil => simp [rss]
  | cons p t ih =>
    by_cases hle : p.1 ≤ bp
    · have hnlt : ¬ (bp < p.1) := not_lt.mpr hle
      simp only [rss] at ih ⊢
      simp [List.filter_cons, hle, hnlt]
      linarith
    · have hlt : bp < p.1 := lt_of_not_le hle
      simp only [rss] at ih ⊢
      simp [List.filter_cons, hle, hlt]
      linarith

/-- The pooled fit's residual sum is at least the sum of the two segment
fits' residual sums: restricted RSS never exceeds full RSS. -/
theorem rss_restricted_le_full (subset : Frame) (bp : ℚ) :
    rss_restricted subset bp ≤ rss_full subset := by
  unfold rss_restricted rss_full
  rw [ptsOf_preOf, ptsOf_postOf]
  have h1 := fitLine_min ((ptsOf subset).filter (fun p => decide (p.1 ≤ bp)))
    (fitLine (ptsOf subset))
  have h2 := fitLine_min ((ptsOf subset).filter (fun p => decide (bp < p.1)))
    (fitLine (ptsOf subset))
  have h3 := rss_filter_split (fitLine (ptsOf subset)) (ptsOf subset) bp
  linarith

theorem rss_restricted_nonneg (subset : Frame) (bp : ℚ) :
    0 ≤ rss_restricted subset bp := by
  unfold rss_restricted
  have h1 := rss_nonneg (fitLine (ptsOf (preOf subset bp))) (ptsOf (preOf subset bp))
  have h2 := rss_nonneg (fitLine (ptsOf (postOf subset bp))) (ptsOf (postOf subset bp))
  linarith

/-- Every evaluated Chow statistic is nonnegative (so it always beats the
initial best_f = -1 of the selection loop); division by a zero restricted
RSS degrades to the rational convention 0. -/
theorem chowFstat_nonneg (subset : Frame) (bp : ℚ) (hn : 5 ≤ subset.length) :
    0 ≤ chowFstat subset bp := by
  unfold chowFstat
  have hrr := rss_restricted_nonneg subset bp
  have hle := rss_restricted_le_full subset bp
  rcases eq_or_lt_of_le hrr with h0 | hpos
  · rw [← h0]
    simp
  · have hn4 : (0 : ℚ) < (subset.length : ℚ) - 2 * 2 := by
      have h5 : (5 : ℚ) ≤ (subset.length : ℚ) := by exact_mod_cast hn
      linarith
    apply div_nonneg
    · apply div_nonneg
      · linarith
      · norm_num
    · exact div_nonneg hpos.le hn4.le

theorem pre_length_le (subset : Frame) (bp : ℚ) :
    (preOf subset bp).length ≤ subset.length :=
  List.length_filter_le _ _

theorem pre_post_length_le (subset : Frame) (bp : ℚ) :
    (preOf subset bp).length + (postOf subset bp).length ≤ subset.length := by
  induction subset with
  | nil => simp [preOf, postOf]
  | cons r t ih =>
    rcases hy : r.tournament_year with _ | y
    · simp only [preOf, postOf] at ih ⊢
      simp [List.filter_cons, hy]
      omega
    · by_cases hle : y ≤ bp
      · have hnlt : ¬ (bp < y) := not_lt.mpr hle
        simp only [preOf, postOf] at ih ⊢
        simp [List.filter_cons, hy, hle, hnlt]
        omega
      · have hlt : bp < y := lt_of_not_le hle
        simp only [preOf, postOf] at ih ⊢
        simp [List.filter_cons, hy, hle, hlt]
        omega

/-! ### Correctness of the candidate sweep -/

theorem chow_step_inv (fcdf : ℚ → ℕ → ℕ → ℚ) (subset : Frame) (seen : List ℚ)
    (st : BestState) (bp : ℚ) (h : chow_inv fcdf subset seen st) :
    chow_inv fcdf subset (seen ++ [bp]) (chow_step fcdf subset st bp) := by
  unfold chow_step
  by_cases hv : (preOf subset bp).length < 5 ∨ (postOf subset bp).length < 5
  · rw [if_pos hv]
    have hf : valid_filter subset (seen ++ [bp]) = valid_filter subset seen := by
      unfold valid_filter
      rw [List.filter_append]
      simp [hv]
      omega
    unfold chow_inv at h ⊢
    rw [hf]
    exact h
  · rw [if_neg hv]
    have hf : valid_filter subset (seen ++ [bp]) = valid_filter subset seen ++ [bp] := by
      unfold valid_filter
      rw [List.filter_append]
      simp [hv]
      omega
    have h5 : 5 ≤ (preOf subset bp).length := by omega
    have hF0 : 0 ≤ chowFstat subset bp :=
      chowFstat_nonneg subset bp (le_trans h5 (pre_length_le subset bp))
    rcases h with ⟨hst, hemp⟩ | ⟨b, s1, s2, hbp, hfe, hpe, hdec, hs1, hs2⟩
    · subst hst
      rw [if_pos (show (-1 : ℚ) < (chow_eval fcdf subset bp).1 by
        simpa [chow_eval] using lt_of_lt_of_le (by norm_num) hF0)]
      unfold chow_inv
      right
      exact ⟨bp, [], [], rfl, rfl, rfl, by rw [hf, hemp], by simp, by simp⟩
    · by_cases hcmp : st.f < (chow_eval fcdf subset bp).1
      · rw [if_pos hcmp]
        have hFnew : st.f < chowFstat subset bp := by
          simpa [chow_eval] using hcmp
        unfold chow_inv
        right
        refine ⟨bp, valid_filter subset seen, [], rfl, rfl, rfl, by rw [hf], ?_, by simp⟩
        intro c hc
        rw [hdec] at hc
        rcases List.mem_append.mp hc with hc1 | hc2
        · exact lt_trans (hs1 c hc1) (by simpa [chow_eval] using hFnew)
        · rcases List.mem_cons.mp hc2 with rfl | hc3
          · rw [← hfe]
            simpa [chow_eval] using hFnew
          · exact lt_of_le_of_lt (hs2 c hc3) (by simpa [chow_eval] using hFnew)
      · rw [if_neg hcmp]
        have hFle : chowFstat subset bp ≤ st.f := by
          have := le_of_not_lt hcmp
          simpa [chow_eval] using this
        unfold chow_inv
        right
        refine ⟨b, s1, s2 ++ [bp], hbp, hfe, hpe, ?_, hs1, ?_⟩
        · rw [hf, hdec]
          simp
        · intro c hc
          rcases List.mem_append.mp hc with hc1 | hc2
          · exact hs2 c hc1
          · have : c = bp := by simpa using hc2
            subst this
            exact hFle

theorem chow_fold_inv (fcdf : ℚ → ℕ → ℕ → ℚ) (subset : Frame) :
    ∀ (cs : List ℚ) (seen : List ℚ) (st : BestState),
      chow_inv fcdf subset seen st →
      chow_inv fcdf subset (seen ++ cs) (cs.foldl (chow_step fcdf subset) st) := by
  intro cs
  induction cs with
  | nil =>
    intro seen st h
    simpa using h
  | cons c cs ih =>
    intro seen st h
    have h1 := chow_step_inv fcdf subset seen st c h
    have h2 := ih (seen ++ [c]) _ h1
    simpa [List.append_assoc] using h2

theorem chow_search_inv (fcdf : ℚ → ℕ → ℕ → ℚ) (subset : Frame) :
    chow_inv fcdf subset candidate_years (chow_search fcdf subset) := by
  have h0 : chow_inv fcdf subset [] { bp := none, f := -1, p := 1 } :=
    Or.inl ⟨rfl, rfl⟩
  have h := chow_fold_inv fcdf subset candidate_years [] _ h0
  simpa [chow_search] using h

/-- C3: each candidate evaluation of the breakpoint loop computes exactly the
Chow statistic F = ((RSS_full - RSS_restricted) / k) / (RSS_restricted /
(n - 2k)) with k = 2 and n the slice row count, where RSS_full is the
residual sum of squares of the pooled fit and RSS_restricted the sum of the
pre- and post-segment residual sums; its p value is the upper F tail
1 - CDF_F(F; 2, n - 4); and the duplicated loop of generate_figures computes
the same statistic. -/
theorem chow_statistic_formula (fcdf : ℚ → ℕ → ℕ → ℚ) (subset : Frame) (bp : ℚ) :
    chow_eval fcdf subset bp =
      (((rss_full subset - rss_restricted subset bp) / 2) /
        (rss_restricted subset bp / ((subset.length : ℚ) - 2 * 2)),
       1 - fcdf (((rss_full subset - rss_restricted subset bp) / 2) /
        (rss_restricted subset bp / ((subset.length : ℚ) - 2 * 2))) 2
        (subset.length - 2 * 2)) ∧
    fig6_f_stat subset bp =
      ((rss_full subset - rss_restricted subset bp) / 2) /
        (rss_restricted subset bp / ((subset.length : ℚ) - 2 * 2)) :=
  ⟨rfl, rfl⟩

/-- C4: the per-slice breakpoint search partitions the rows at each candidate
year into pre (year at most bp) and post (year above bp), skips any candidate
with a partition under 5 rows, returns none exactly when no candidate is
valid (NoValidBreakpoint; the under-10-rows slice skip is the special case
with no valid candidate at all), and otherwise selects the valid candidate of
maximum Chow F, the earliest in the ordered candidate list among ties: every
valid candidate before it scores strictly less and every one after it scores
at most its F. -/
theorem breakpoint_search_spec (fcdf : ℚ → ℕ → ℕ → ℚ) (fit : FitKernel)
    (subset : Frame) :
    (table7_slice fcdf fit subset = none ↔ valid_candidates subset = []) ∧
    ∀ rec, table7_slice fcdf fit subset = some rec →
      ∃ s1 s2, valid_candidates subset = s1 ++ rec.best_breakpoint :: s2 ∧
        (∀ c ∈ s1, chowFstat subset c < chowFstat subset rec.best_breakpoint) ∧
        (∀ c ∈ s2, chowFstat subset c ≤ chowFstat subset rec.best_breakpoint) := by
  have hinv := chow_search_inv fcdf subset
  by_cases h10 : subset.length < 10
  · have hvemp : valid_candidates subset = [] := by
      unfold valid_candidates valid_filter
      rw [List.filter_eq_nil_iff]
      intro c _
      have hle := pre_post_length_le subset c
      simp
      omega
    refine ⟨⟨fun _ => hvemp, fun _ => ?_⟩, fun rec hrec => ?_⟩
    · unfold table7_slice
      rw [if_pos h10]
    · unfold table7_slice at hrec
      rw [if_pos h10] at hrec
      exact absurd hrec (by simp)
  · rcases hinv with ⟨hst, hemp⟩ | ⟨b, s1, s2, hbp, hfe, hpe, hdec, hs1, hs2⟩
    · refine ⟨⟨fun _ => hemp, fun _ => ?_⟩, fun rec hrec => ?_⟩
      · simp only [table7_slice, if_neg h10, hst]
      · simp only [table7_slice, if_neg h10, hst] at hrec
        exact absurd hrec (by simp)
    · constructor
      · constructor
        · intro hnone
          simp only [table7_slice, if_neg h10, hbp] at hnone
          exact absurd hnone (by simp)
        · intro hv
          unfold valid_candidates at hv
          rw [hv] at hdec
          exact absurd hdec.symm (by simp)
      · intro rec hrec
        simp only [table7_slice, if_neg h10, hbp, Option.some.injEq] at hrec
        refine ⟨s1, s2, ?_, ?_, ?_⟩
        · rw [← hrec]
          exact hdec
        · intro c hc
          rw [← hrec]
          have := hs1 c hc
          rwa [hfe] at this
        · intro c hc
          rw [← hrec]
          have := hs2 c hc
          rwa [hfe] at this

/-! ### Concrete evaluation of the breakpoint sweep on bp10 -/

theorem rss_fit_zero_of_const (pts : List (ℚ × ℚ)) (c : ℚ)
    (hc : rss { slope := 0, intercept := c } pts = 0) :
    rss (fitLine pts) pts = 0 :=
  le_antisymm (hc ▸ fitLine_min pts { slope := 0, intercept := c }) (rss_nonneg _ _)

theorem rss_full_bp10 : rss_full bp10 = 0 := by
  have hpts : ptsOf bp10 =
      [(1994, 180), (1994, 180), (1995, 180), (1995, 180), (1996, 180),
       (1997, 180), (1997, 180), (1998, 180), (1998, 180), (1999, 180)] := by decide
  unfold rss_full
  rw [hpts]
  exact rss_fit_zero_of_const _ 180 (by norm_num [rss, Line.at])

theorem rss_restricted_bp10 : rss_restricted bp10 1996 = 0 := by
  have hpre : ptsOf (preOf bp10 1996) =
      [(1994, 180), (1994, 180), (1995, 180), (1995, 180), (1996, 180)] := by decide
  have hpost : ptsOf (postOf bp10 1996) =
      [(1997, 180), (1997, 180), (1998, 180), (1998, 180), (1999, 180)] := by decide
  unfold rss_restricted
  rw [hpre, hpost]
  rw [rss_fit_zero_of_const _ 180 (by norm_num [rss, Line.at]),
    rss_fit_zero_of_const _ 180 (by norm_num [rss, Line.at])]
  norm_num

theorem chowFstat_bp10 : chowFstat bp10 1996 = 0 := by
  unfold chowFstat
  rw [rss_full_bp10, rss_restricted_bp10]
  norm_num

theorem chow_step_skip (st : BestState) (bp : ℚ)
    (h : (preOf bp10 bp).length < 5 ∨ (postOf bp10 bp).length < 5) :
    chow_step fcdf0 bp10 st bp = st := by
  unfold chow_step
  rw [if_pos h]

theorem chow_step_1996 :
    chow_step fcdf0 bp10 { bp := none, f := -1, p := 1 } 1996 =
      { bp := some 1996, f := 0, p := 1 } := by
  unfold chow_step
  rw [if_neg (by decide :
    ¬((preOf bp10 1996).length < 5 ∨ (postOf bp10 1996).length < 5))]
  have he : chow_eval fcdf0 bp10 1996 = (0, 1) := by
    unfold chow_eval
    rw [chowFstat_bp10]
    norm_num [fcdf0]
  rw [he]
  norm_num

theorem chow_search_bp10 :
    chow_search fcdf0 bp10 = { bp := some 1996, f := 0, p := 1 } := by
  unfold chow_search candidate_years
  rw [List.foldl_cons, chow_step_1996, List.foldl_cons,
    chow_step_skip _ _ (by decide), List.foldl_cons,
    chow_step_skip _ _ (by decide), List.foldl_cons,
    chow_step_skip _ _ (by decide), List.foldl_cons,
    chow_step_skip _ _ (by decide), List.foldl_cons,
    chow_step_skip _ _ (by decide), List.foldl_nil]

theorem table7_slice_bp10 : table7_slice fcdf0 fit0 bp10 = some bpRec0 := by
  have hpre : safe_ols fit0 "height_cm" ["tournament_year"] (preOf bp10 1996) = some m0 :=
    safe_ols_fit0_eval _ (by decide) (by decide)
  have hpost : safe_ols fit0 "height_cm" ["tournament_year"] (postOf bp10 1996) = some m0 :=
    safe_ols_fit0_eval _ (by decide) (by decide)
  have hr61 : roundTo 6 (1 : ℚ) = 1 := by exact_mod_cast roundTo_intCast 6 1
  simp only [table7_slice, if_neg (by decide : ¬ bp10.length < 10), chow_search_bp10,
    hpre, hpost]
  norm_num [m0, bpRec0, roundTo_zero, hr61, List.lookup]

/-! ### No table function mutates the input frame -/

theorem store_read_push (s : Store) (f : Frame) (i : ℕ) (h : i < s.frames.length) :
    (s.push f).read i = s.read i := by
  unfold Store.push Store.read
  rw [List.getD_eq_getElem _ _ (by simp; omega), List.getD_eq_getElem _ _ h]
  exact List.getElem_append_left h

theorem store_length_push (s : Store) (f : Frame) :
    (s.push f).frames.length = s.frames.length + 1 := by
  simp [Store.push]

theorem store_read_write_ne (s : Store) (j : ℕ) (f : Frame) (i : ℕ) (h : i ≠ j) :
    (s.write j f).read i = s.read i := by
  unfold Store.write Store.read
  by_cases hi : i < s.frames.length
  · rw [List.getD_eq_getElem _ _ (by simp [List.length_set]; omega),
      List.getD_eq_getElem _ _ hi]
    rw [List.getElem_set_ne h.symm]
  · rw [List.getD_eq_default _ _ (by simp [List.length_set]; omega),
      List.getD_eq_default _ _ (by omega)]

theorem store_length_write (s : Store) (j : ℕ) (f : Frame) :
    (s.write j f).frames.length = s.frames.length := by
  simp [Store.write]

theorem store_read_push_write (s : Store) (f : Frame) (g : Frame → Frame) (i : ℕ)
    (h : i < s.frames.length) :
    (s.push_write f g).read i = s.read i := by
  unfold Store.push_write
  rw [store_read_write_ne _ _ _ _ (by omega)]
  exact store_read_push s f i h

theorem store_length_push_write (s : Store) (f : Frame) (g : Frame → Frame) :
    (s.push_write f g).frames.length = s.frames.length + 1 := by
  unfold Store.push_write
  rw [store_length_write, store_length_push]

theorem foldl_frames_preserve {α : Type} (step : Store → α → Store)
    (hstep : ∀ (s : Store) (a : α) (i : ℕ), i < s.frames.length →
      (step s a).read i = s.read i ∧ s.frames.length ≤ (step s a).frames.length) :
    ∀ (l : List α) (s : Store) (i : ℕ), i < s.frames.length →
      (l.foldl step s).read i = s.read i ∧
      s.frames.length ≤ (l.foldl step s).frames.length := by
  intro l
  induction l with
  | nil =>
    intro s i h
    exact ⟨rfl, Nat.le_refl _⟩
  | cons a t ih =>
    intro s i h
    simp only [List.foldl_cons]
    have h1 := hstep s a i h
    have h2 := ih (step s a) i (by omega)
    exact ⟨h2.1.trans h1.1, le_trans h1.2 h2.2⟩

theorem table2_frames_preserve (df : ℕ) (s : Store) (i : ℕ) (_h : i < s.frames.length) :
    (table2_frames df s).read i = s.read i ∧
    s.frames.length ≤ (table2_frames df s).frames.length :=
  ⟨rfl, Nat.le_refl _⟩

theorem table3_frames_preserve (df : ℕ) (s : Store) (i : ℕ) (h : i < s.frames.length) :
    (table3_frames df s).read i = s.read i ∧
    s.frames.length ≤ (table3_frames df s).frames.length := by
  simp only [table3_frames]
  have hf := foldl_frames_preserve
    (fun s cat => s.push (dropna ["height_cm", "tournament_year"]
      ((s.read df).filter (fun r => r.category = some cat))))
    (fun s a i hi => ⟨store_read_push _ _ _ hi, by rw [store_length_push]; omega⟩)
    CATEGORIES s i h
  constructor
  · rw [store_read_push _ _ _ (by omega)]
    exact hf.1
  · rw [store_length_push]
    omega

theorem table4_frames_preserve (df : ℕ) (s : Store) (i : ℕ) (h : i < s.frames.length) :
    (table4_frames df s).read i = s.read i ∧
    s.frames.length ≤ (table4_frames df s).frames.length := by
  simp only [table4_frames]
  have h1 : i < (s.push (dropna ["height_cm", "tournament_year",
      "pop_height_birth_cohort"] (s.read df))).frames.length := by
    rw [store_length_push]
    omega
  have hf1 := foldl_frames_preserve
    (fun s cat => s.push ((s.read df).filter (fun r => r.category = some cat)))
    (fun s a i hi => ⟨store_read_push _ _ _ hi, by rw [store_length_push]; omega⟩)
    CATEGORIES _ i h1
  have hf2 := foldl_frames_preserve
    (fun s cat => s.push (dropna ["height_cm", "tournament_year"]
      ((s.read df).filter (fun r => r.category = some cat))))
    (fun s a i hi => ⟨store_read_push _ _ _ hi, by rw [store_length_push]; omega⟩)
    CATEGORIES
    (CATEGORIES.foldl
      (fun s cat => s.push ((s.read df).filter (fun r => r.category = some cat)))
      (s.push (dropna ["height_cm", "tournament_year", "pop_height_birth_cohort"]
        (s.read df))))
    i (by omega)
  refine ⟨?_, ?_⟩
  · rw [hf2.1, hf1.1]
    exact store_read_push _ _ _ h
  · have := store_length_push s (dropna ["height_cm", "tournament_year",
      "pop_height_birth_cohort"] (s.read df))
    omega

theorem table5_frames_preserve (df : ℕ) (s : Store) (i : ℕ) (h : i < s.frames.length) :
    (table5_frames df s).read i = s.read i ∧
    s.frames.length ≤ (table5_frames df s).frames.length := by
  simp only [table5_frames]
  have h1 : i < (s.push (dropna ["height_cm", "tournament_year"]
      ((s.read df).filter (fun r => r.category = some "BAT")))).frames.length := by
    rw [store_length_push]
    omega
  have hf := foldl_frames_preserve
    (fun s nation => s.push ((s.read df).filter (fun r => r.country = some nation)))
    (fun s a i hi => ⟨store_read_push _ _ _ hi, by rw [store_length_push]; omega⟩)
    NATIONS _ i h1
  refine ⟨?_, ?_⟩
  · rw [hf.1]
    exact store_read_push _ _ _ h
  · have := store_length_push s (dropna ["height_cm", "tournament_year"]
      ((s.read df).filter (fun r => r.category = some "BAT")))
    omega

theorem table6_frames_preserve (df : ℕ) (s : Store) (i : ℕ) (h : i < s.frames.length) :
    (table6_frames df s).read i = s.read i ∧
    s.frames.length ≤ (table6_frames df s).frames.length := by
  simp only [table6_frames]
  refine ⟨?_, ?_⟩
  · rw [store_read_push _ _ _ (by rw [store_length_push]; omega)]
    exact store_read_push _ _ _ h
  · rw [store_length_push, store_length_push]
    omega

theorem table7_frames_preserve (df : ℕ) (s : Store) (i : ℕ) (h : i < s.frames.length) :
    (table7_frames df s).read i = s.read i ∧
    s.frames.length ≤ (table7_frames df s).frames.length := by
  simp only [table7_frames]
  have hinner : ∀ (s : Store) (bp : ℚ) (i : ℕ), i < s.frames.length →
      ((s.push (preOf (s.read df) bp)).push (postOf (s.read df) bp)).read i = s.read i ∧
      s.frames.length ≤
        ((s.push (preOf (s.read df) bp)).push (postOf (s.read df) bp)).frames.length := by
    intro s bp i hi
    refine ⟨?_, ?_⟩
    · rw [store_read_push _ _ _ (by rw [store_length_push]; omega)]
      exact store_read_push _ _ _ hi
    · rw [store_length_push, store_length_push]
      omega
  have hstep : ∀ (s : Store) (cat : String) (i : ℕ), i < s.frames.length →
      (candidate_years.foldl
        (fun s bp => (s.push (preOf (s.read df) bp)).push (postOf (s.read df) bp))
        (s.push (dropna ["height_cm", "tournament_year"]
          (if cat = "ALL" then s.read df
           else (s.read df).filter (fun r => r.category = some cat))))).read i = s.read i ∧
      s.frames.length ≤
      (candidate_years.foldl
        (fun s bp => (s.push (preOf (s.read df) bp)).push (postOf (s.read df) bp))
        (s.push (dropna ["height_cm", "tournament_year"]
          (if cat = "ALL" then s.read df
           else (s.read df).filter (fun r => r.category = some cat))))).frames.length := by
    intro s cat i hi
    have hff := foldl_frames_preserve
      (fun s bp => (s.push (preOf (s.read df) bp)).push (postOf (s.read df) bp))
      (fun s bp i hj => hinner s bp i hj)
      candidate_years
      (s.push (dropna ["height_cm", "tournament_year"]
        (if cat = "ALL" then s.read df
         else (s.read df).filter (fun r => r.category = some cat))))
      i (by rw [store_length_push]; omega)
    refine ⟨hff.1.trans (store_read_push _ _ _ hi), ?_⟩
    have := store_length_push s (dropna ["height_cm", "tournament_year"]
      (if cat = "ALL" then s.read df
       else (s.read df).filter (fun r => r.category = some cat)))
    omega
  exact foldl_frames_preserve _ hstep ["BAT", "FAST", "ALL"] s i h

theorem table8_frames_preserve (df : ℕ) (s : Store) (i : ℕ) (h : i < s.frames.length) :
    (table8_frames df s).read i = s.read i ∧
    s.frames.length ≤ (table8_frames df s).frames.length := by
  simp only [table8_frames]
  exact ⟨store_read_push_write _ _ _ _ h, by rw [store_length_push_write]; omega⟩

theorem table9_frames_preserve (df : ℕ) (s : Store) (i : ℕ) (h : i < s.frames.length) :
    (table9_frames df s).read i = s.read i ∧
    s.frames.length ≤ (table9_frames df s).frames.length := by
  simp only [table9_frames]
  have l1 : i < (s.push (dropna ["height_cm", "tournament_year", "country"]
      (s.read df))).frames.length := by
    rw [store_length_push]
    omega
  refine ⟨?_, ?_⟩
  · rw [store_read_push_write _ _ _ _
      (by simp only [store_length_push, store_length_push_write]; omega)]
    rw [store_read_push _ _ _
      (by simp only [store_length_push, store_length_push_write]; omega)]
    rw [store_read_push_write _ _ _ _
      (by simp only [store_length_push, store_length_push_write]; omega)]
    rw [store_read_push _ _ _ l1]
    exact store_read_push _ _ _ h
  · simp only [store_length_push, store_length_push_write]
    omega

theorem table10_frames_preserve (df : ℕ) (s : Store) (i : ℕ) (h : i < s.frames.length) :
    (table10_frames df s).read i = s.read i ∧
    s.frames.length ≤ (table10_frames df s).frames.length := by
  simp only [table10_frames]
  refine ⟨?_, ?_⟩
  · rw [store_read_push _ _ _ (by simp only [store_length_push]; omega)]
    rw [store_read_push _ _ _ (by simp only [store_length_push]; omega)]
    rw [store_read_push _ _ _ (by simp only [store_length_push]; omega)]
    rw [store_read_push _ _ _ (by simp only [store_length_push]; omega)]
    exact store_read_push _ _ _ h
  · simp only [store_length_push]
    omega

/-- C8: no analysis function mutates the frame it receives: after each of the
nine table functions, and after the whole module sequence of main, the frame
object at the input reference is unchanged; only freshly allocated frames
(filtered copies and views) are ever written. -/
theorem tables_preserve_input_frame (s : Store) (df : ℕ) (h : df < s.frames.length) :
    (table2_frames df s).read df = s.read df ∧
    (table3_frames df s).read df = s.read df ∧
    (table4_frames df s).read df = s.read df ∧
    (table5_frames df s).read df = s.read df ∧
    (table6_frames df s).read df = s.read df ∧
    (table7_frames df s).read df = s.read df ∧
    (table8_frames df s).read df = s.read df ∧
    (table9_frames df s).read df = s.read df ∧
    (table10_frames df s).read df = s.read df ∧
    (run_all_frames df s).read df = s.read df := by
  have p2 := table2_frames_preserve df s df h
  have p3 := table3_frames_preserve df s df h
  have p4 := table4_frames_preserve df s df h
  have p5 := table5_frames_preserve df s df h
  have p6 := table6_frames_preserve df s df h
  have p7 := table7_frames_preserve df s df h
  have p8 := table8_frames_preserve df s df h
  have p9 := table9_frames_preserve df s df h
  have p10 := table10_frames_preserve df s df h
  refine ⟨p2.1, p3.1, p4.1, p5.1, p6.1, p7.1, p8.1, p9.1, p10.1, ?_⟩
  unfold run_all_frames
  have q2 := table2_frames_preserve df s df h
  have q3 := table3_frames_preserve df (table2_frames df s) df (by omega)
  have q4 := table4_frames_preserve df
    (table3_frames df (table2_frames df s)) df (by omega)
  have q5 := table5_frames_preserve df
    (table4_frames df (table3_frames df (table2_frames df s))) df (by omega)
  have q6 := table6_frames_preserve df
    (table5_frames df (table4_frames df (table3_frames df (table2_frames df s))))
    df (by omega)
  have q7 := table7_frames_preserve df
    (table6_frames df (table5_frames df (table4_frames df (table3_frames df
      (table2_frames df s))))) df (by omega)
  have q8 := table8_frames_preserve df
    (table7_frames df (table6_frames df (table5_frames df (table4_frames df
      (table3_frames df (table2_frames df s)))))) df (by omega)
  have q9 := table9_frames_preserve df
    (table8_frames df (table7_frames df (table6_frames df (table5_frames df
      (table4_frames df (table3_frames df (table2_frames df s))))))) df (by omega)
  have q10 := table10_frames_preserve df
    (table9_frames df (table8_frames df (table7_frames df (table6_frames df
      (table5_frames df (table4_frames df (table3_frames df
        (table2_frames df s)))))))) df (by omega)
  rw [q10.1, q9.1, q8.1, q7.1, q6.1, q5.1, q4.1, q3.1, q2.1]

/-- Witness: a one-frame store is untouched by the whole run. -/
theorem tables_preserve_input_frame_witness :
    0 < store0.frames.length ∧
    (run_all_frames 0 store0).read 0 = store0.read 0 :=
  ⟨by decide,
   (tables_preserve_input_frame store0 0 (by decide)).2.2.2.2.2.2.2.2.2⟩

/-- Witness: the bp10 slice has exactly one valid candidate, 1996, and the
search returns it with its statistics. -/
theorem breakpoint_search_spec_witness :
    table7_slice fcdf0 fit0 bp10 = some bpRec0 ∧
    ∃ s1 s2, valid_candidates bp10 = s1 ++ bpRec0.best_breakpoint :: s2 ∧
      (∀ c ∈ s1, chowFstat bp10 c < chowFstat bp10 bpRec0.best_breakpoint) ∧
      (∀ c ∈ s2, chowFstat bp10 c ≤ chowFstat bp10 bpRec0.best_breakpoint) :=
  ⟨table7_slice_bp10,
   (breakpoint_search_spec fcdf0 fit0 bp10).2 bpRec0 table7_slice_bp10⟩

/-! ### Serialization round trip -/

theorem dump_list_eq (xs : List PyVal) :
    dump (.list xs) = .arr (xs.map dump) := by
  simp only [dump]
  rw [List.attach_map_val xs dump]

theorem dump_dict_eq (kvs : List (PyKey × PyVal)) :
    dump (.dict kvs) = .obj (kvs.map (fun kv => (dumpKey kv.1, dump kv.2))) := by
  simp only [dump]
  rw [List.attach_map_val kvs (fun kv => (dumpKey kv.1, dump kv.2))]

theorem load_arr_eq (xs : List Json) :
    load (.arr xs) = .list (xs.map load) := by
  simp only [load]
  rw [List.attach_map_val xs load]

theorem load_obj_eq (kvs : List (String × Json)) :
    load (.obj kvs) = .dict (kvs.map (fun kv => (PyKey.str kv.1, load kv.2))) := by
  simp only [load]
  rw [List.attach_map_val kvs (fun kv => (PyKey.str kv.1, load kv.2))]

/-- Everything json.load reads back is plain: string keys only, no wrapper
values. -/
theorem plain_load : ∀ (j : Json), PlainDoc (load j)
  | .null => by
    simp only [load]
    exact PlainDoc.none
  | .bool b => by
    simp only [load]
    exact PlainDoc.bool b
  | .intNum z => by
    simp only [load]
    exact PlainDoc.int z
  | .floatNum q => by
    simp only [load]
    exact PlainDoc.float q
  | .str s => by
    simp only [load]
    exact PlainDoc.str s
  | .arr xs => by
    rw [load_arr_eq]
    refine PlainDoc.list _ (fun v hv => ?_)
    obtain ⟨y, hy, rfl⟩ := List.mem_map.mp hv
    exact plain_load y
  | .obj kvs => by
    rw [load_obj_eq]
    refine PlainDoc.dict _ (fun kv hkv => ?_) (fun kv hkv => ?_)
    · obtain ⟨y, hy, rfl⟩ := List.mem_map.mp hkv
      exact ⟨y.1, rfl⟩
    · obtain ⟨y, hy, rfl⟩ := List.mem_map.mp hkv
      exact plain_load y.2
termination_by j => sizeOf j
decreasing_by
all_goals simp_wf
· have := List.sizeOf_lt_of_mem hy
  omega
· have h1 := List.sizeOf_lt_of_mem hy
  rcases y with ⟨a, b⟩
  simp at h1 ⊢
  omega

/-- C9 (amended): the serialization layer emits a plain JSON tree (no numpy
wrapper survives in what is read back), and round-tripping is the identity on
documents whose mapping keys are all strings and whose values are plain;
non-string keys are coerced to strings by json.dump, so a document with
integer keys (such as table2's by_era mapping) comes back with string keys
instead. -/
theorem serialization_roundtrip_plain :
    (∀ w : PyVal, PlainDoc (load (dump w))) ∧
    ∀ v : PyVal, PlainDoc v → load (dump v) = v := by
  refine ⟨fun w => plain_load (dump w), ?_⟩
  intro v hv
  induction hv with
  | none => simp [dump, load]
  | bool b => simp [dump, load]
  | int z => simp [dump, load]
  | float q => simp [dump, load]
  | str s => simp [dump, load]
  | list xs h ih =>
    rw [dump_list_eq, load_arr_eq, List.map_map]
    have hmap : xs.map (load ∘ dump) = xs.map (fun x => x) :=
      List.map_congr_left (fun x hx => ih x hx)
    rw [hmap, List.map_id']
  | dict kvs hk hp ih =>
    rw [dump_dict_eq, load_obj_eq, List.map_map]
    have hmap : kvs.map ((fun kv => (PyKey.str kv.1, load kv.2)) ∘
        (fun kv => (dumpKey kv.1, dump kv.2))) = kvs.map (fun kv => kv) := by
      apply List.map_congr_left
      intro kv hkv
      obtain ⟨s, hs⟩ := hk kv hkv
      have hv2 := ih kv hkv
      simp only [Function.comp]
      rw [hs, hv2]
      simp only [dumpKey]
      exact Prod.ext hs.symm rfl
    rw [hmap, List.map_id']

/-- C9 (counterexample): the by_era-shaped document with an integer era key
does not round-trip: serialization coerces the key 1996 to the string "1996",
so deserialization yields a different document. -/
theorem serialization_int_key_not_lossless : load (dump eraDoc) ≠ eraDoc := by
  intro h
  simp only [eraDoc, dump_dict_eq, load_obj_eq, List.map_cons, List.map_nil,
    dumpKey] at h
  simp at h

/-- Witness: a plain, string-keyed document round-trips unchanged. -/
theorem serialization_roundtrip_plain_witness :
    PlainDoc plainDoc0 ∧ load (dump plainDoc0) = plainDoc0 := by
  have hinner : PlainDoc (PyVal.dict
      [(PyKey.str "n", PyVal.int 5),
       (PyKey.str "mean_height", PyVal.float (181 / 1))]) := by
    refine PlainDoc.dict _ (fun kv hkv => ?_) (fun kv hkv => ?_)
    · simp only [List.mem_cons, List.not_mem_nil, or_false] at hkv
      rcases hkv with rfl | rfl
      · exact ⟨"n", rfl⟩
      · exact ⟨"mean_height", rfl⟩
    · simp only [List.mem_cons, List.not_mem_nil, or_false] at hkv
      rcases hkv with rfl | rfl
      · exact PlainDoc.int 5
      · exact PlainDoc.float _
  have hp : PlainDoc plainDoc0 := by
    unfold plainDoc0
    refine PlainDoc.dict _ (fun kv hkv => ?_) (fun kv hkv => ?_)
    · simp only [List.mem_cons, List.not_mem_nil, or_false] at hkv
      rcases hkv with rfl
      exact ⟨"overall", rfl⟩
    · simp only [List.mem_cons, List.not_mem_nil, or_false] at hkv
      rcases hkv with rfl
      exact hinner
  exact ⟨hp, serialization_roundtrip_plain.2 plainDoc0 hp⟩

end Cric
